import Mathlib

/-!
The lzsa command-line driver (`src/lzsa.c`): option resolution and invocation

A shallow embedding of `main` and `do_compress` of `lzsa.c`.

* Command-line tokens (`argv[i]`) are `String`s; `strcmp(a, "x") == 0` is
  `a = "x"`, `strncmp(a, "-D", 2) == 0` is `a.data.take 2 = "-D".data` and
  the pointer `a + 2` is the string of `a.data.drop 2`.
* C `int` variables are `Int`, the `unsigned int` option word is a `Nat`
  carrying the bits `OPT_*`.
* The C library function `strtol` is embedded after ISO C (7.22.1.4) in the
  "C" locale; the width of `long` is a parameter of the embedding
  (`DataModel`), because the program narrows the `long` result to `int`
  before the range check.
* The compression engine `lzsa_compress_file` (declared in `lib.h`, not part
  of `lzsa.c`) is a parameter of `do_compress` and `main`.
* Effects (clock reads, the engine call, printed lines) are recorded in an
  explicit event log.
* The text of the progress line and of the summary line is given by an
  embedding of `fprintf` after ISO C (7.21.6.1): ordinary characters of the
  format are copied and each conversion specification fetches the next
  argument of its class.  The macro `PRId64` of `<inttypes.h>` is a parameter
  of the two formats.
-/

namespace Lzsa

/-! ## Constants of `lzsa.c` -/

def OPT_VERBOSE : Nat := 1
def OPT_FAVOR_RATIO : Nat := 2
def OPT_BACKWARD : Nat := 4
def OPT_STATS : Nat := 8

/-- Largest value of `unsigned int` (32 bits); `~x` on the option word is `UINT_MAX - x`. -/
def UINT_MAX : Nat := 4294967295

/-! ## The C library: `strtol` and the narrowing to `int` -/

/-- Width of the C type `long` on the target: 32 bits (ILP32, and LLP64 as on
`_WIN32`) or 64 bits (LP64). -/
inductive DataModel where
  | long32
  | long64
  deriving DecidableEq, Repr

def DataModel.longBits : DataModel → Nat
  | .long32 => 32
  | .long64 => 64

/-- Value of `LONG_MAX`. -/
def LONG_MAX (dm : DataModel) : Int := 2 ^ (dm.longBits - 1) - 1

/-- Value of `LONG_MIN`. -/
def LONG_MIN (dm : DataModel) : Int := -(2 ^ (dm.longBits - 1))

/-- Function `isspace` in the "C" locale. -/
def isspace (c : Char) : Bool :=
  c.toNat = 32 || (9 ≤ c.toNat && c.toNat ≤ 13)

/-- Function `isdigit`. -/
def isdigit (c : Char) : Bool :=
  48 ≤ c.toNat && c.toNat ≤ 57

/-- Longest run of decimal digits at the front of the text: the number they
denote (continuing from `acc`) and how many characters were read
(continuing from `n`). -/
def readDigits : List Char → Nat → Nat → Nat × Nat
  | [], acc, n => (acc, n)
  | c :: cs, acc, n =>
    if isdigit c then readDigits cs (acc * 10 + (c.toNat - 48)) (n + 1) else (acc, n)

/-- Saturation of an out-of-range conversion result to `LONG_MIN`/`LONG_MAX`. -/
def clampLong (dm : DataModel) (v : Int) : Int :=
  if v < LONG_MIN dm then LONG_MIN dm
  else if LONG_MAX dm < v then LONG_MAX dm
  else v

/-- Call `strtol(nptr, &pEnd, 10)`: the returned `long`, and the offset
`pEnd - nptr`.  Leading white space is skipped, an optional sign is read, then
the longest run of decimal digits.  When there is no digit, no conversion is
performed: the result is `0` and `pEnd = nptr` (offset `0`). -/
def strtol (dm : DataModel) (nptr : List Char) : Int × Nat :=
  let body := nptr.dropWhile isspace
  let nSpace := nptr.length - body.length
  let neg : Bool := body.head? = some '-'
  let signed : Bool := body.head? = some '-' || body.head? = some '+'
  let digits := if signed then body.drop 1 else body
  let r := readDigits digits 0 0
  if r.2 = 0 then (0, 0)
  else (clampLong dm (if neg then -(r.1 : Int) else (r.1 : Int)),
        nSpace + (if signed then 1 else 0) + r.2)

/-- Conversion `(int)v` of a `long` to the 32-bit `int`: reduction modulo
`2^32` into the range of `int`. -/
def toInt32 (v : Int) : Int :=
  (v + 2147483648) % 4294967296 - 2147483648

/-! ## `main`: the argument loop -/

/-- Local variables of `main` that the argument loop reads and writes. -/
structure MainState where
  pszInFilename : Option String
  pszOutFilename : Option String
  pszDictionaryFilename : Option String
  nArgsError : Int
  nMinMatchDefined : Int
  nMinMatchSize : Int
  nOptions : Nat
  deriving DecidableEq, Repr

/-- Initial values of the locals of `main` (lines 180-186). -/
def initState : MainState :=
  { pszInFilename := none
    pszOutFilename := none
    pszDictionaryFilename := none
    nArgsError := 0
    nMinMatchDefined := 0
    nMinMatchSize := 0
    nOptions := OPT_FAVOR_RATIO }

/-- One execution of the body of the `for` loop of `main` (lines 189-282) with
`arg = argv[i]`; `next` is `argv[i + 1]` when `i + 1 < argc`.  The result is
the new state and whether the body executed its own `i++` (the following token
was consumed as a value). -/
def step (dm : DataModel) (st : MainState) (arg : String) (next : Option String) :
    MainState × Bool :=
  if arg = "-D" then
    match st.pszDictionaryFilename, next with
    | none, some nx => ({ st with pszDictionaryFilename := some nx }, true)
    | _, _ => ({ st with nArgsError := 1 }, false)
  else if arg.data.take 2 = "-D".data then
    match st.pszDictionaryFilename with
    | none => ({ st with pszDictionaryFilename := some (String.mk (arg.data.drop 2)) }, false)
    | some _ => ({ st with nArgsError := 1 }, false)
  else if arg = "-m" then
    if st.nMinMatchDefined = 0 then
      match next with
      | some nx =>
        let r := strtol dm nx.data
        let st1 := { st with nMinMatchSize := toInt32 r.1 }
        if r.2 ≠ 0 ∧ ((2 : Int) ≤ st1.nMinMatchSize ∧ st1.nMinMatchSize ≤ (5 : Int)) then
          ({ st1 with nMinMatchDefined := 1
                      nOptions := st1.nOptions &&& (UINT_MAX - OPT_FAVOR_RATIO) }, true)
        else
          ({ st1 with nArgsError := 1 }, false)
      | none => ({ st with nArgsError := 1 }, false)
    else
      ({ st with nArgsError := 1 }, false)
  else if arg.data.take 2 = "-m".data then
    if st.nMinMatchDefined = 0 then
      let r := strtol dm (arg.data.drop 2)
      let st1 := { st with nMinMatchSize := toInt32 r.1 }
      if r.2 ≠ 0 ∧ ((2 : Int) ≤ st1.nMinMatchSize ∧ st1.nMinMatchSize ≤ (5 : Int)) then
        ({ st1 with nMinMatchDefined := 1
                    nOptions := st1.nOptions &&& (UINT_MAX - OPT_FAVOR_RATIO) }, false)
      else
        ({ st1 with nArgsError := 1 }, false)
    else
      ({ st with nArgsError := 1 }, false)
  else if arg = "--prefer-ratio" then
    if st.nMinMatchDefined = 0 then
      ({ st with nMinMatchSize := 0, nMinMatchDefined := 1 }, false)
    else
      ({ st with nArgsError := 1 }, false)
  else if arg = "--prefer-speed" then
    if st.nMinMatchDefined = 0 then
      ({ st with nMinMatchSize := 3
                 nOptions := st.nOptions &&& (UINT_MAX - OPT_FAVOR_RATIO)
                 nMinMatchDefined := 1 }, false)
    else
      ({ st with nArgsError := 1 }, false)
  else if arg = "-v" then
    if st.nOptions &&& OPT_VERBOSE = 0 then
      ({ st with nOptions := st.nOptions ||| OPT_VERBOSE }, false)
    else
      ({ st with nArgsError := 1 }, false)
  else if arg = "-b" then
    if st.nOptions &&& OPT_BACKWARD = 0 then
      ({ st with nOptions := st.nOptions ||| OPT_BACKWARD }, false)
    else
      ({ st with nArgsError := 1 }, false)
  else if arg = "-stats" then
    if st.nOptions &&& OPT_STATS = 0 then
      ({ st with nOptions := st.nOptions ||| OPT_STATS }, false)
    else
      ({ st with nArgsError := 1 }, false)
  else
    match st.pszInFilename with
    | none => ({ st with pszInFilename := some arg }, false)
    | some _ =>
      match st.pszOutFilename with
      | none => ({ st with pszOutFilename := some arg }, false)
      | some _ => ({ st with nArgsError := 1 }, false)

/-- The `for` loop of `main` (lines 188-283) over the tokens `argv[i..argc-1]`
that remain to be read. -/
def parseLoop (dm : DataModel) : List String → MainState → MainState
  | [], st => st
  | arg :: rest, st =>
    match step dm st arg rest.head? with
    | (st1, false) => parseLoop dm rest st1
    | (st1, true) =>
      match rest with
      | [] => st1
      | _ :: rest2 => parseLoop dm rest2 st1

/-- Indices (relative to the first remaining token) at which the body of the
`for` loop of `main` is executed, i.e. the tokens that are read as `argv[i]`;
the other tokens are consumed as the value of a preceding `-D` or `-m`. -/
def heads (dm : DataModel) : List String → MainState → List Nat
  | [], _ => []
  | arg :: rest, st =>
    match step dm st arg rest.head? with
    | (st1, false) => 0 :: (heads dm rest st1).map (· + 1)
    | (st1, true) =>
      match rest with
      | [] => [0]
      | _ :: rest2 => 0 :: (heads dm rest2 st1).map (· + 2)

/-- The tokens that are read as `argv[i]` by the loop, in order. -/
def headTokens (dm : DataModel) (args : List String) (st : MainState) : List String :=
  (heads dm args st).filterMap (fun k => args[k]?)

/-! ## Classes of tokens, after the tests of the loop body -/

/-- The token begins with `-D` (lines 189 and 197). -/
def isDictOption (arg : String) : Prop := arg.data.take 2 = "-D".data

/-- The token begins with `-m` (lines 204 and 220). -/
def isMOption (arg : String) : Prop := arg.data.take 2 = "-m".data

/-- The token is a minimum-match specification: `-m`, `-m<n>`, `--prefer-ratio`
or `--prefer-speed` (lines 204-251). -/
def isMinMatchSpec (arg : String) : Prop :=
  isMOption arg ∨ arg = "--prefer-ratio" ∨ arg = "--prefer-speed"

/-- The token matches none of the option tests of the loop body, so that the
body reaches the final `else` (lines 273-282). -/
def isPositional (arg : String) : Prop :=
  ¬ isDictOption arg ∧ ¬ isMOption arg ∧ arg ≠ "--prefer-ratio" ∧ arg ≠ "--prefer-speed" ∧
    arg ≠ "-v" ∧ arg ≠ "-b" ∧ arg ≠ "-stats"

instance (arg : String) : Decidable (isDictOption arg) := by unfold isDictOption; infer_instance
instance (arg : String) : Decidable (isMOption arg) := by unfold isMOption; infer_instance
instance (arg : String) : Decidable (isMinMatchSpec arg) := by unfold isMinMatchSpec; infer_instance
instance (arg : String) : Decidable (isPositional arg) := by unfold isPositional; infer_instance

/-- Arguments of the call `do_compress(...)` at the end of `main`. -/
structure Config where
  pszInFilename : String
  pszOutFilename : String
  pszDictionaryFilename : Option String
  nOptions : Nat
  nMinMatchSize : Int
  deriving DecidableEq, Repr

/-- The test of line 285 on the state left by the loop: `none` when
`nArgsError || !pszInFilename || !pszOutFilename` holds (usage error),
otherwise the arguments that line 301 passes to `do_compress`. -/
def resolved (st : MainState) : Option Config :=
  if st.nArgsError ≠ 0 then none
  else
    match st.pszInFilename, st.pszOutFilename with
    | some inName, some outName =>
      some { pszInFilename := inName
             pszOutFilename := outName
             pszDictionaryFilename := st.pszDictionaryFilename
             nOptions := st.nOptions
             nMinMatchSize := st.nMinMatchSize }
    | _, _ => none

/-- The option resolver: the loop of `main` run on `argv[1..argc-1]` from the
initial locals, followed by the test of line 285. -/
def resolve (dm : DataModel) (args : List String) : Option Config :=
  resolved (parseLoop dm args initState)

/-! ## `do_compress` and the end of `main` -/

/-- Modelled from the spec: the success status `LZSA_OK` of `lzsa_status_t`
(declared in `lib.h`, which is not part of `lzsa.c`); it is the status `Ok` of
the spec, the first enumerator, with value `0`. -/
def LZSA_OK : Int := 0

/-- The fields of `lzsa_stats` (declared in `lib.h`) that `do_compress` prints. -/
structure lzsa_stats where
  min_literals : Int
  max_literals : Int
  total_literals : Int
  min_offset : Int
  max_offset : Int
  num_rep_offsets : Int
  total_offsets : Int
  min_match_len : Int
  max_match_len : Int
  total_match_lens : Int
  min_rle1_len : Int
  max_rle1_len : Int
  total_rle1_lens : Int
  min_rle2_len : Int
  max_rle2_len : Int
  total_rle2_lens : Int
  literals_divisor : Int
  match_divisor : Int
  rle1_divisor : Int
  rle2_divisor : Int
  deriving DecidableEq

/-- What one call of `lzsa_compress_file` leaves behind: the returned status,
the values of its output arguments, and the calls `(nOriginalSize,
nCompressedSize)` it made to the progress callback, in order. -/
structure EngineResult where
  nStatus : Int
  nOriginalSize : Int
  nCompressedSize : Int
  nCommandCount : Int
  nSafeDist : Int
  stats : lzsa_stats
  progressCalls : List (Int × Int)

/-- The part of `lib.h` that `lzsa.c` uses: the two engine flag constants and
the engine entry point `lzsa_compress_file`, as a function of its input
arguments (input name, output name, dictionary name, flags, minimum match
size). -/
structure Lib where
  LZSA_FLAG_FAVOR_RATIO : Nat
  LZSA_FLAG_BACKWARD : Nat
  lzsa_compress_file : String → String → Option String → Nat → Int → EngineResult

/-- A line written by the program: the `fprintf` call that writes it, with
the integers that its arguments are or are computed from.  The text of the
progress line and of the summary line is given by `progressText` and
`summaryText`; the other formats are quoted without their final newline. -/
inductive Line where
  /-- The usage text of lines 286-295 (`argv[0]` is printed in it). -/
  | usage (argv0 : Option String)
  /-- The diagnostic chosen by the `switch` of lines 123-133 for a status other than `LZSA_OK`. -/
  | compressionError (nStatus : Int)
  /-- The call of line 94, with format `progressFormat` and the arguments
  `nOriginalSize`, `nCompressedSize` and `nCompressedSize * 100.0 / nOriginalSize`. -/
  | progress (nOriginalSize nCompressedSize : Int)
  /-- The call of line 141, with format `summaryFormat` and arguments computed
  from the elapsed microseconds `nEndTime - nStartTime`, the token count and
  the two sizes (`summaryArgs`). -/
  | summary (pszInFilename : String) (nElapsed : Int) (nCommandCount : Int)
      (nOriginalSize nCompressedSize : Int)
  /-- Line 144, `"Safe distance: %d (0x%X)"`. -/
  | safeDistance (nSafeDist : Int)
  /-- Line 149, `"Literals: min: %d avg: %d max: %d count: %d"`. -/
  | literals (min avg max count : Int)
  /-- Line 151, `"Literals: none"`. -/
  | literalsNone
  /-- Line 153, `"Offsets: min: %d avg: %d max: %d reps: %d count: %d"`. -/
  | offsets (min avg max reps count : Int)
  /-- Line 154, `"Match lens: min: %d avg: %d max: %d count: %d"`. -/
  | matchLens (min avg max count : Int)
  /-- Line 157, `"Offsets: none"`. -/
  | offsetsNone
  /-- Line 158, `"Match lens: none"`. -/
  | matchLensNone
  /-- Line 161, `"RLE1 lens: min: %d avg: %d max: %d count: %d"`. -/
  | rle1Lens (min avg max count : Int)
  /-- Line 164, `"RLE1 lens: none"`. -/
  | rle1LensNone
  /-- Line 167, `"RLE2 lens: min: %d avg: %d max: %d count: %d"`. -/
  | rle2Lens (min avg max count : Int)
  /-- Line 170, `"RLE2 lens: none"`. -/
  | rle2LensNone
  deriving DecidableEq

/-- Observable effects of a run, in program order. -/
inductive Event where
  /-- A call of `do_init_time`. -/
  | initTime
  /-- A call of `do_get_time`. -/
  | getTime
  /-- The call of `lzsa_compress_file` with these input arguments. -/
  | compressFile (pszInFilename pszOutFilename : String)
      (pszDictionaryFilename : Option String) (nFlags : Nat) (nMinMatchSize : Int)
  | stdout (line : Line)
  | stderr (line : Line)
  deriving DecidableEq

/-- The progress callback `compression_progress` (lines 92-97). -/
def compression_progress (nOriginalSize nCompressedSize : Int) : List Event :=
  if nOriginalSize ≥ 1024 * 1024 then
    [Event.stdout (Line.progress nOriginalSize nCompressedSize)]
  else []

/-- The statistics lines of lines 148-171. -/
def statsLines (stats : lzsa_stats) : List Event :=
  (if stats.literals_divisor > 0 then
    [Event.stdout (Line.literals stats.min_literals
      (Int.tdiv stats.total_literals stats.literals_divisor)
      stats.max_literals stats.literals_divisor)]
   else [Event.stdout Line.literalsNone]) ++
  (if stats.match_divisor > 0 then
    [Event.stdout (Line.offsets stats.min_offset
      (Int.tdiv stats.total_offsets stats.match_divisor)
      stats.max_offset stats.num_rep_offsets stats.match_divisor),
     Event.stdout (Line.matchLens stats.min_match_len
      (Int.tdiv stats.total_match_lens stats.match_divisor)
      stats.max_match_len stats.match_divisor)]
   else [Event.stdout Line.offsetsNone, Event.stdout Line.matchLensNone]) ++
  (if stats.rle1_divisor > 0 then
    [Event.stdout (Line.rle1Lens stats.min_rle1_len
      (Int.tdiv stats.total_rle1_lens stats.rle1_divisor)
      stats.max_rle1_len stats.rle1_divisor)]
   else [Event.stdout Line.rle1LensNone]) ++
  (if stats.rle2_divisor > 0 then
    [Event.stdout (Line.rle2Lens stats.min_rle2_len
      (Int.tdiv stats.total_rle2_lens stats.rle2_divisor)
      stats.max_rle2_len stats.rle2_divisor)]
   else [Event.stdout Line.rle2LensNone])

/-- The value of `nFlags` computed by lines 107-111 of `do_compress`. -/
def engineFlags (lib : Lib) (nOptions : Nat) : Nat :=
  let nFlags0 : Nat := 0
  let nFlags1 :=
    if nOptions &&& OPT_FAVOR_RATIO ≠ 0 then nFlags0 ||| lib.LZSA_FLAG_FAVOR_RATIO else nFlags0
  if nOptions &&& OPT_BACKWARD ≠ 0 then nFlags1 ||| lib.LZSA_FLAG_BACKWARD else nFlags1

/-- Function `do_compress` (lines 99-174): the returned exit code and the
events of the call.  `clock k` is the value returned by the `k`-th call of
`do_get_time` made by the function. -/
def do_compress (lib : Lib) (clock : Nat → Int)
    (pszInFilename pszOutFilename : String) (pszDictionaryFilename : Option String)
    (nOptions : Nat) (nMinMatchSize : Int) : Int × List Event :=
  let nFlags := engineFlags lib nOptions
  let nStartTime : Int := if nOptions &&& OPT_VERBOSE ≠ 0 then clock 0 else 0
  let evStart := if nOptions &&& OPT_VERBOSE ≠ 0 then [Event.getTime] else []
  let r := lib.lzsa_compress_file pszInFilename pszOutFilename pszDictionaryFilename
    nFlags nMinMatchSize
  let evCall :=
    Event.compressFile pszInFilename pszOutFilename pszDictionaryFilename nFlags nMinMatchSize ::
      r.progressCalls.flatMap (fun p => compression_progress p.1 p.2)
  let nEndTime : Int := if nOptions &&& OPT_VERBOSE ≠ 0 then clock 1 else 0
  let evEnd := if nOptions &&& OPT_VERBOSE ≠ 0 then [Event.getTime] else []
  let evDiag :=
    if r.nStatus = LZSA_OK then [] else [Event.stderr (Line.compressionError r.nStatus)]
  if r.nStatus ≠ 0 then
    (100, evStart ++ evCall ++ evEnd ++ evDiag)
  else
    let evVerbose :=
      if nOptions &&& OPT_VERBOSE ≠ 0 then
        [Event.stdout (Line.summary pszInFilename (nEndTime - nStartTime) r.nCommandCount
            r.nOriginalSize r.nCompressedSize),
         Event.stdout (Line.safeDistance r.nSafeDist)]
      else []
    let evStats := if nOptions &&& OPT_STATS ≠ 0 then statsLines r.stats else []
    (0, evStart ++ evCall ++ evEnd ++ evDiag ++ evVerbose ++ evStats)

/-- Function `main` (lines 178-302) on the argument vector `argv`
(`argv[0]` is the program name): the exit code and the events of the run. -/
def main (dm : DataModel) (lib : Lib) (clock : Nat → Int) (argv : List String) :
    Int × List Event :=
  match resolve dm (argv.drop 1) with
  | none => (100, [Event.stderr (Line.usage argv.head?)])
  | some c =>
    let r := do_compress lib clock c.pszInFilename c.pszOutFilename c.pszDictionaryFilename
      c.nOptions c.nMinMatchSize
    (r.1, Event.initTime :: r.2)


/-! ## Reading the event log -/

/-- The event is the call of the engine `lzsa_compress_file`. -/
def Event.isEngineCall : Event → Bool
  | .compressFile _ _ _ _ _ => true
  | _ => false

/-- The event is a read of the clock (`do_get_time`). -/
def Event.isClockRead : Event → Bool
  | .getTime => true
  | _ => false

/-- The line is one of the statistics lines (lines 149-170). -/
def Line.isStats : Line → Bool
  | .literals _ _ _ _ => true
  | .literalsNone => true
  | .offsets _ _ _ _ _ => true
  | .matchLens _ _ _ _ => true
  | .offsetsNone => true
  | .matchLensNone => true
  | .rle1Lens _ _ _ _ => true
  | .rle1LensNone => true
  | .rle2Lens _ _ _ _ => true
  | .rle2LensNone => true
  | _ => false

/-- The event writes a statistics line to the standard output. -/
def Event.isStatsLine : Event → Bool
  | .stdout line => line.isStats
  | _ => false

/-- An engine library with flag constants 1 and 4 whose entry point reports
success with 4 tokens, 4096 original and 1024 compressed bytes, with literals
and RLE1 runs but no match and no RLE2 run in the statistics. -/
def sampleLib : Lib :=
  { LZSA_FLAG_FAVOR_RATIO := 1
    LZSA_FLAG_BACKWARD := 4
    lzsa_compress_file := fun _ _ _ _ _ =>
      { nStatus := 0, nOriginalSize := 4096, nCompressedSize := 1024, nCommandCount := 4,
        nSafeDist := 0,
        stats :=
          { min_literals := 1, max_literals := 6, total_literals := 10, min_offset := 0,
            max_offset := 0, num_rep_offsets := 0, total_offsets := 0, min_match_len := 0,
            max_match_len := 0, total_match_lens := 0, min_rle1_len := 2, max_rle1_len := 5,
            total_rle1_lens := 7, min_rle2_len := 0, max_rle2_len := 0, total_rle2_lens := 0,
            literals_divisor := 3, match_divisor := 0, rle1_divisor := 2, rle2_divisor := 0 },
        progressCalls := [] } }

/-! ## The statistics lines, with the divisions checked -/

/-- The C expression `a / b` on `int`: undefined (`none`) when `b` is zero or
the quotient is not representable, otherwise the quotient truncated toward
zero. -/
def cDiv (a b : Int) : Option Int :=
  if b = 0 ∨ (a = -2147483648 ∧ b = -1) then none else some (Int.tdiv a b)

/-- The statistics lines of lines 148-171 with every division performed by
`cDiv`: `none` when an undefined division is executed. -/
def statsLinesChecked (stats : lzsa_stats) : Option (List Event) := do
  let l1 ←
    if stats.literals_divisor > 0 then do
      let avg ← cDiv stats.total_literals stats.literals_divisor
      pure [Event.stdout (Line.literals stats.min_literals avg stats.max_literals
        stats.literals_divisor)]
    else pure [Event.stdout Line.literalsNone]
  let l2 ←
    if stats.match_divisor > 0 then do
      let avgOffset ← cDiv stats.total_offsets stats.match_divisor
      let avgLen ← cDiv stats.total_match_lens stats.match_divisor
      pure [Event.stdout (Line.offsets stats.min_offset avgOffset stats.max_offset
              stats.num_rep_offsets stats.match_divisor),
            Event.stdout (Line.matchLens stats.min_match_len avgLen stats.max_match_len
              stats.match_divisor)]
    else pure [Event.stdout Line.offsetsNone, Event.stdout Line.matchLensNone]
  let l3 ←
    if stats.rle1_divisor > 0 then do
      let avg ← cDiv stats.total_rle1_lens stats.rle1_divisor
      pure [Event.stdout (Line.rle1Lens stats.min_rle1_len avg stats.max_rle1_len
        stats.rle1_divisor)]
    else pure [Event.stdout Line.rle1LensNone]
  let l4 ←
    if stats.rle2_divisor > 0 then do
      let avg ← cDiv stats.total_rle2_lens stats.rle2_divisor
      pure [Event.stdout (Line.rle2Lens stats.min_rle2_len avg stats.max_rle2_len
        stats.rle2_divisor)]
    else pure [Event.stdout Line.rle2LensNone]
  pure (l1 ++ l2 ++ l3 ++ l4)

/-- The statistics lines as the spec words them: for each category the line
reads "none" when its divisor is zero, and otherwise reports the minimum, the
average (sum divided by the divisor, truncated), the maximum and the count;
the offsets line also reports the repeated offsets. -/
def statsLinesSpec (stats : lzsa_stats) : List Event :=
  (if stats.literals_divisor = 0 then [Event.stdout Line.literalsNone]
   else [Event.stdout (Line.literals stats.min_literals
      (Int.tdiv stats.total_literals stats.literals_divisor)
      stats.max_literals stats.literals_divisor)]) ++
  (if stats.match_divisor = 0 then [Event.stdout Line.offsetsNone, Event.stdout Line.matchLensNone]
   else [Event.stdout (Line.offsets stats.min_offset
      (Int.tdiv stats.total_offsets stats.match_divisor)
      stats.max_offset stats.num_rep_offsets stats.match_divisor),
     Event.stdout (Line.matchLens stats.min_match_len
      (Int.tdiv stats.total_match_lens stats.match_divisor)
      stats.max_match_len stats.match_divisor)]) ++
  (if stats.rle1_divisor = 0 then [Event.stdout Line.rle1LensNone]
   else [Event.stdout (Line.rle1Lens stats.min_rle1_len
      (Int.tdiv stats.total_rle1_lens stats.rle1_divisor)
      stats.max_rle1_len stats.rle1_divisor)]) ++
  (if stats.rle2_divisor = 0 then [Event.stdout Line.rle2LensNone]
   else [Event.stdout (Line.rle2Lens stats.min_rle2_len
      (Int.tdiv stats.total_rle2_lens stats.rle2_divisor)
      stats.max_rle2_len stats.rle2_divisor)])

/-- The statistics lines as the amended claim words them: for each category
the line reads "none" when its divisor is zero or negative, and otherwise
reports the minimum, the average (sum divided by the divisor, truncated), the
maximum and the count; the offsets line also reports the repeated offsets. -/
def statsLinesAmended (stats : lzsa_stats) : List Event :=
  (if stats.literals_divisor ≤ 0 then [Event.stdout Line.literalsNone]
   else [Event.stdout (Line.literals stats.min_literals
      (Int.tdiv stats.total_literals stats.literals_divisor)
      stats.max_literals stats.literals_divisor)]) ++
  (if stats.match_divisor ≤ 0 then [Event.stdout Line.offsetsNone, Event.stdout Line.matchLensNone]
   else [Event.stdout (Line.offsets stats.min_offset
      (Int.tdiv stats.total_offsets stats.match_divisor)
      stats.max_offset stats.num_rep_offsets stats.match_divisor),
     Event.stdout (Line.matchLens stats.min_match_len
      (Int.tdiv stats.total_match_lens stats.match_divisor)
      stats.max_match_len stats.match_divisor)]) ++
  (if stats.rle1_divisor ≤ 0 then [Event.stdout Line.rle1LensNone]
   else [Event.stdout (Line.rle1Lens stats.min_rle1_len
      (Int.tdiv stats.total_rle1_lens stats.rle1_divisor)
      stats.max_rle1_len stats.rle1_divisor)]) ++
  (if stats.rle2_divisor ≤ 0 then [Event.stdout Line.rle2LensNone]
   else [Event.stdout (Line.rle2Lens stats.min_rle2_len
      (Int.tdiv stats.total_rle2_lens stats.rle2_divisor)
      stats.max_rle2_len stats.rle2_divisor)])

/-- An engine library whose entry point reports success with a statistics
record in which the divisor of the literals is -1. -/
def negDivisorLib : Lib :=
  { LZSA_FLAG_FAVOR_RATIO := 1
    LZSA_FLAG_BACKWARD := 4
    lzsa_compress_file := fun _ _ _ _ _ =>
      { nStatus := 0, nOriginalSize := 4096, nCompressedSize := 1024, nCommandCount := 4,
        nSafeDist := 0,
        stats :=
          { min_literals := 1, max_literals := 4, total_literals := 7, min_offset := 0,
            max_offset := 0, num_rep_offsets := 0, total_offsets := 0, min_match_len := 0,
            max_match_len := 0, total_match_lens := 0, min_rle1_len := 0, max_rle1_len := 0,
            total_rle1_lens := 0, min_rle2_len := 0, max_rle2_len := 0, total_rle2_lens := 0,
            literals_divisor := -1, match_divisor := 0, rle1_divisor := 0, rle2_divisor := 0 },
        progressCalls := [] } }

/-! ## The text of the progress line and of the summary line -/

/-- An argument passed to `fprintf` after the format: a string (`none` for a
null pointer), an `int`, a `long long`, or a `double`.  A `double` is carried
as the exact rational value of the expression it is computed from, where no
divisor is zero; rounding is not modelled. -/
inductive Arg where
  | str (s : Option String)
  | int (v : Int)
  | longlong (v : Int)
  | double (v : Rat)
  deriving DecidableEq

/-- One unit of the output of `fprintf`: an ordinary character copied from the
format, or the result of the conversion specification `spec` (the characters
after its `%`) for the argument it fetches (`none` when no argument of its
class is left).  The rendering of a conversion is not modelled. -/
inductive OutItem where
  | ch (c : Char)
  | conv (spec : List Char) (arg : Option Arg)
  deriving DecidableEq

/-- The characters that end a conversion specification. -/
def isConversionChar (c : Char) : Bool :=
  "diouxXfFeEgGaAcspn".data.contains c

/-- The conversion characters of the floating-point conversions. -/
def isFloatConversion (c : Char) : Bool :=
  "aAeEfFgG".data.contains c

/-- The argument is a `double`. -/
def Arg.isDouble : Arg → Bool
  | .double _ => true
  | _ => false

/-- The first argument of the wanted class (`double`, or integer and pointer)
among the arguments not fetched yet, and the arguments that are left. -/
def fetchArg (float : Bool) : List Arg → Option Arg × List Arg
  | [] => (none, [])
  | a :: rest =>
    if a.isDouble = float then (some a, rest)
    else ((fetchArg float rest).1, a :: (fetchArg float rest).2)

/-- Function `fprintf` on the characters of the format that remain (ISO C
7.21.6.1): ordinary characters are copied; `%%` writes a percent sign; any
other conversion specification runs up to its conversion character and
fetches an argument.  A floating-point conversion fetches the next `double`
argument and any other conversion the next integer or pointer argument.  For
a call whose arguments are in the order of its conversions this is the next
argument, as ISO C says.  For the two calls of `lzsa.c` whose arguments are
not in that order ISO C defines no result; the rule is that of the calling
conventions that pass variable arguments in integer and floating-point
registers (x86-64 System V, AArch64).  The second argument is the part of a
conversion specification read so far, when inside one. -/
def fprintfAux : List Char → Option (List Char) → List Arg → List OutItem
  | [], _, _ => []
  | c :: cs, none, args =>
    if c = '%' then fprintfAux cs (some []) args
    else OutItem.ch c :: fprintfAux cs none args
  | c :: cs, some spec, args =>
    if c = '%' ∧ spec = [] then
      OutItem.ch c :: fprintfAux cs none args
    else if isConversionChar c then
      OutItem.conv (spec ++ [c]) (fetchArg (isFloatConversion c) args).1 ::
        fprintfAux cs none (fetchArg (isFloatConversion c) args).2
    else fprintfAux cs (some (spec ++ [c])) args

/-- Function `fprintf`: the output for a format and its arguments. -/
def fprintf (format : String) (args : List Arg) : List OutItem :=
  fprintfAux format.data none args

/-- Ordinary text, character by character. -/
def lit (s : String) : List OutItem := s.data.map OutItem.ch

/-- The format of line 94, `"\r" PRId64 " => " PRId64 " (%g %%)     \b\b\b\b\b"`.
`PRId64` is the macro of `<inttypes.h>`: a string literal such as `"ld"` or
`"lld"`, the conversion for a 64-bit integer without the leading percent
sign; adjacent string literals are concatenated. -/
def progressFormat (PRId64 : String) : String :=
  "\r" ++ PRId64 ++ " => " ++ PRId64 ++ " (%g %%)     \x08\x08\x08\x08\x08"

/-- The arguments of the `fprintf` call of line 94. -/
def progressArgs (nOriginalSize nCompressedSize : Int) : List Arg :=
  [Arg.longlong nOriginalSize, Arg.longlong nCompressedSize,
   Arg.double ((nCompressedSize : Rat) * 100 / (nOriginalSize : Rat))]

/-- The text written for `Line.progress nOriginalSize nCompressedSize`. -/
def progressText (PRId64 : String) (nOriginalSize nCompressedSize : Int) : List OutItem :=
  fprintf (progressFormat PRId64) (progressArgs nOriginalSize nCompressedSize)

/-- The format of line 141. -/
def summaryFormat (PRId64 : String) : String :=
  "\rCompressed \x27%s\x27 in %g seconds, %.02g Mb/s, %d tokens (%g bytes/token), " ++
    PRId64 ++ " into " ++ PRId64 ++ " bytes ==> %g %%\n"

/-- The arguments of the `fprintf` call of lines 141-143; `nElapsed` is
`nEndTime - nStartTime`, so that `fDelta` is `nElapsed / 1000000.0` and
`fSpeed` is `(nOriginalSize / 1048576.0) / fDelta`. -/
def summaryArgs (pszInFilename : String) (nElapsed nCommandCount nOriginalSize
    nCompressedSize : Int) : List Arg :=
  [Arg.str (some pszInFilename),
   Arg.double ((nElapsed : Rat) / 1000000),
   Arg.double (((nOriginalSize : Rat) / 1048576) / ((nElapsed : Rat) / 1000000)),
   Arg.int nCommandCount,
   Arg.double ((nOriginalSize : Rat) / (nCommandCount : Rat)),
   Arg.longlong nOriginalSize,
   Arg.longlong nCompressedSize,
   Arg.double ((nCompressedSize : Rat) * 100 / (nOriginalSize : Rat))]

/-- The text written for `Line.summary pszInFilename nElapsed nCommandCount
nOriginalSize nCompressedSize`. -/
def summaryText (PRId64 : String) (pszInFilename : String) (nElapsed nCommandCount
    nOriginalSize nCompressedSize : Int) : List OutItem :=
  fprintf (summaryFormat PRId64)
    (summaryArgs pszInFilename nElapsed nCommandCount nOriginalSize nCompressedSize)

/-! ## Invariants of the loop -/

/-- While no error has been recorded, the minimum match size and the
favor-ratio bit agree: either the size is `0` and the bit is set, or a size in
`2..5` has been defined and the bit is clear. -/
def MinMatchInv (st : MainState) : Prop :=
  st.nArgsError = 0 →
    (st.nMinMatchSize = 0 ∧ st.nOptions &&& OPT_FAVOR_RATIO ≠ 0) ∨
    (st.nMinMatchDefined ≠ 0 ∧ (2 : Int) ≤ st.nMinMatchSize ∧ st.nMinMatchSize ≤ (5 : Int) ∧
      st.nOptions &&& OPT_FAVOR_RATIO = 0)

/-- Number of the two file-name slots of `main` that are filled. -/
def namesFilled (st : MainState) : Nat :=
  (if st.pszInFilename = none then 0 else 1) + (if st.pszOutFilename = none then 0 else 1)

/-- Progress of the file-name slots after `k` positional tokens: the input
name is set after one, both names after two, and the error flag is raised
after three or more (at every level, unless the error flag is raised already). -/
def PositionalLevel : Nat → MainState → Prop
  | 0, _ => True
  | 1, st => st.pszInFilename ≠ none ∨ st.nArgsError ≠ 0
  | 2, st => (st.pszInFilename ≠ none ∧ st.pszOutFilename ≠ none) ∨ st.nArgsError ≠ 0
  | _ + 3, st => st.nArgsError ≠ 0

/-! ## The loop body, token class by token class -/

theorem step_dictSep (dm : DataModel) (st : MainState) (next : Option String) :
    step dm st "-D" next =
      match st.pszDictionaryFilename, next with
      | none, some nx => ({ st with pszDictionaryFilename := some nx }, true)
      | _, _ => ({ st with nArgsError := 1 }, false) := by
  unfold step
  rw [if_pos rfl]

theorem step_dictAtt (dm : DataModel) (st : MainState) (arg : String) (next : Option String)
    (h1 : arg ≠ "-D") (h2 : isDictOption arg) :
    step dm st arg next =
      match st.pszDictionaryFilename with
      | none => ({ st with pszDictionaryFilename := some (String.mk (arg.data.drop 2)) }, false)
      | some _ => ({ st with nArgsError := 1 }, false) := by
  unfold isDictOption at h2
  unfold step
  rw [if_neg h1, if_pos h2]

theorem step_mSep (dm : DataModel) (st : MainState) (next : Option String) :
    step dm st "-m" next =
      if st.nMinMatchDefined = 0 then
        match next with
        | some nx =>
          if (strtol dm nx.data).2 ≠ 0 ∧ ((2 : Int) ≤ toInt32 (strtol dm nx.data).1 ∧
              toInt32 (strtol dm nx.data).1 ≤ (5 : Int)) then
            ({ st with nMinMatchSize := toInt32 (strtol dm nx.data).1
                       nMinMatchDefined := 1
                       nOptions := st.nOptions &&& (UINT_MAX - OPT_FAVOR_RATIO) }, true)
          else
            ({ st with nMinMatchSize := toInt32 (strtol dm nx.data).1, nArgsError := 1 }, false)
        | none => ({ st with nArgsError := 1 }, false)
      else
        ({ st with nArgsError := 1 }, false) := by
  have h1 : ¬ ("-m" = "-D") := by decide
  have h2 : ¬ ("-m".data.take 2 = "-D".data) := by decide
  unfold step
  rw [if_neg h1, if_neg h2, if_pos rfl]

theorem step_mAtt (dm : DataModel) (st : MainState) (arg : String) (next : Option String)
    (h1 : arg ≠ "-m") (h2 : isMOption arg) :
    step dm st arg next =
      if st.nMinMatchDefined = 0 then
        if (strtol dm (arg.data.drop 2)).2 ≠ 0 ∧
            ((2 : Int) ≤ toInt32 (strtol dm (arg.data.drop 2)).1 ∧
              toInt32 (strtol dm (arg.data.drop 2)).1 ≤ (5 : Int)) then
          ({ st with nMinMatchSize := toInt32 (strtol dm (arg.data.drop 2)).1
                     nMinMatchDefined := 1
                     nOptions := st.nOptions &&& (UINT_MAX - OPT_FAVOR_RATIO) }, false)
        else
          ({ st with nMinMatchSize := toInt32 (strtol dm (arg.data.drop 2)).1
                     nArgsError := 1 }, false)
      else
        ({ st with nArgsError := 1 }, false) := by
  unfold isMOption at h2
  have hD : ¬ (arg.data.take 2 = "-D".data) := by
    rw [h2]; decide
  have hD0 : arg ≠ "-D" := by
    rintro rfl; exact absurd h2 (by decide)
  unfold step
  rw [if_neg hD0, if_neg hD, if_neg h1, if_pos h2]

theorem step_preferRatio (dm : DataModel) (st : MainState) (next : Option String) :
    step dm st "--prefer-ratio" next =
      if st.nMinMatchDefined = 0 then
        ({ st with nMinMatchSize := 0, nMinMatchDefined := 1 }, false)
      else
        ({ st with nArgsError := 1 }, false) := by
  have h1 : ¬ ("--prefer-ratio" = "-D") := by decide
  have h2 : ¬ ("--prefer-ratio".data.take 2 = "-D".data) := by decide
  have h3 : ¬ ("--prefer-ratio" = "-m") := by decide
  have h4 : ¬ ("--prefer-ratio".data.take 2 = "-m".data) := by decide
  unfold step
  rw [if_neg h1, if_neg h2, if_neg h3, if_neg h4, if_pos rfl]

theorem step_preferSpeed (dm : DataModel) (st : MainState) (next : Option String) :
    step dm st "--prefer-speed" next =
      if st.nMinMatchDefined = 0 then
        ({ st with nMinMatchSize := 3
                   nOptions := st.nOptions &&& (UINT_MAX - OPT_FAVOR_RATIO)
                   nMinMatchDefined := 1 }, false)
      else
        ({ st with nArgsError := 1 }, false) := by
  have h1 : ¬ ("--prefer-speed" = "-D") := by decide
  have h2 : ¬ ("--prefer-speed".data.take 2 = "-D".data) := by decide
  have h3 : ¬ ("--prefer-speed" = "-m") := by decide
  have h4 : ¬ ("--prefer-speed".data.take 2 = "-m".data) := by decide
  have h5 : ¬ ("--prefer-speed" = "--prefer-ratio") := by decide
  unfold step
  rw [if_neg h1, if_neg h2, if_neg h3, if_neg h4, if_neg h5, if_pos rfl]

theorem step_v (dm : DataModel) (st : MainState) (next : Option String) :
    step dm st "-v" next =
      if st.nOptions &&& OPT_VERBOSE = 0 then
        ({ st with nOptions := st.nOptions ||| OPT_VERBOSE }, false)
      else
        ({ st with nArgsError := 1 }, false) := by
  have h1 : ¬ ("-v" = "-D") := by decide
  have h2 : ¬ ("-v".data.take 2 = "-D".data) := by decide
  have h3 : ¬ ("-v" = "-m") := by decide
  have h4 : ¬ ("-v".data.take 2 = "-m".data) := by decide
  have h5 : ¬ ("-v" = "--prefer-ratio") := by decide
  have h6 : ¬ ("-v" = "--prefer-speed") := by decide
  unfold step
  rw [if_neg h1, if_neg h2, if_neg h3, if_neg h4, if_neg h5, if_neg h6, if_pos rfl]

theorem step_b (dm : DataModel) (st : MainState) (next : Option String) :
    step dm st "-b" next =
      if st.nOptions &&& OPT_BACKWARD = 0 then
        ({ st with nOptions := st.nOptions ||| OPT_BACKWARD }, false)
      else
        ({ st with nArgsError := 1 }, false) := by
  have h1 : ¬ ("-b" = "-D") := by decide
  have h2 : ¬ ("-b".data.take 2 = "-D".data) := by decide
  have h3 : ¬ ("-b" = "-m") := by decide
  have h4 : ¬ ("-b".data.take 2 = "-m".data) := by decide
  have h5 : ¬ ("-b" = "--prefer-ratio") := by decide
  have h6 : ¬ ("-b" = "--prefer-speed") := by decide
  have h7 : ¬ ("-b" = "-v") := by decide
  unfold step
  rw [if_neg h1, if_neg h2, if_neg h3, if_neg h4, if_neg h5, if_neg h6, if_neg h7, if_pos rfl]

theorem step_stats (dm : DataModel) (st : MainState) (next : Option String) :
    step dm st "-stats" next =
      if st.nOptions &&& OPT_STATS = 0 then
        ({ st with nOptions := st.nOptions ||| OPT_STATS }, false)
      else
        ({ st with nArgsError := 1 }, false) := by
  have h1 : ¬ ("-stats" = "-D") := by decide
  have h2 : ¬ ("-stats".data.take 2 = "-D".data) := by decide
  have h3 : ¬ ("-stats" = "-m") := by decide
  have h4 : ¬ ("-stats".data.take 2 = "-m".data) := by decide
  have h5 : ¬ ("-stats" = "--prefer-ratio") := by decide
  have h6 : ¬ ("-stats" = "--prefer-speed") := by decide
  have h7 : ¬ ("-stats" = "-v") := by decide
  have h8 : ¬ ("-stats" = "-b") := by decide
  unfold step
  rw [if_neg h1, if_neg h2, if_neg h3, if_neg h4, if_neg h5, if_neg h6, if_neg h7, if_neg h8,
    if_pos rfl]

theorem step_positional (dm : DataModel) (st : MainState) (arg : String) (next : Option String)
    (h : isPositional arg) :
    step dm st arg next =
      match st.pszInFilename with
      | none => ({ st with pszInFilename := some arg }, false)
      | some _ =>
        match st.pszOutFilename with
        | none => ({ st with pszOutFilename := some arg }, false)
        | some _ => ({ st with nArgsError := 1 }, false) := by
  obtain ⟨hD, hM, h5, h6, h7, h8, h9⟩ := h
  unfold isDictOption at hD
  unfold isMOption at hM
  have h1 : arg ≠ "-D" := by
    rintro rfl; exact hD (by decide)
  have h3 : arg ≠ "-m" := by
    rintro rfl; exact hM (by decide)
  unfold step
  rw [if_neg h1, if_neg hD, if_neg h3, if_neg hM, if_neg h5, if_neg h6, if_neg h7, if_neg h8,
    if_neg h9]

/-- Every token falls in exactly one branch of the loop body. -/
theorem token_cases (arg : String) :
    arg = "-D" ∨ (arg ≠ "-D" ∧ isDictOption arg) ∨ arg = "-m" ∨ (arg ≠ "-m" ∧ isMOption arg) ∨
      arg = "--prefer-ratio" ∨ arg = "--prefer-speed" ∨ arg = "-v" ∨ arg = "-b" ∨
      arg = "-stats" ∨ isPositional arg := by
  unfold isPositional
  tauto

/-! ## Induction along the loop -/

theorem parseLoop_nil (dm : DataModel) (st : MainState) : parseLoop dm [] st = st := by
  rw [parseLoop]

theorem parseLoop_noskip (dm : DataModel) (arg : String) (rest : List String)
    (st st1 : MainState) (hs : step dm st arg rest.head? = (st1, false)) :
    parseLoop dm (arg :: rest) st = parseLoop dm rest st1 := by
  rw [parseLoop, hs]

theorem parseLoop_skip (dm : DataModel) (arg x : String) (rest2 : List String)
    (st st1 : MainState) (hs : step dm st arg (some x) = (st1, true)) :
    parseLoop dm (arg :: x :: rest2) st = parseLoop dm rest2 st1 := by
  rw [parseLoop]
  simp only [List.head?_cons]
  rw [hs]

theorem parseLoop_single_skip (dm : DataModel) (arg : String)
    (st st1 : MainState) (hs : step dm st arg none = (st1, true)) :
    parseLoop dm [arg] st = st1 := by
  rw [parseLoop]
  simp only [List.head?_nil]
  rw [hs]

theorem headTokens_nil (dm : DataModel) (st : MainState) : headTokens dm [] st = [] := by
  simp [headTokens, heads]

theorem headTokens_noskip (dm : DataModel) (arg : String) (rest : List String)
    (st st1 : MainState) (hs : step dm st arg rest.head? = (st1, false)) :
    headTokens dm (arg :: rest) st = arg :: headTokens dm rest st1 := by
  unfold headTokens
  rw [heads, hs]
  simp [List.filterMap_map, Function.comp_def]

theorem headTokens_skip (dm : DataModel) (arg x : String) (rest2 : List String)
    (st st1 : MainState) (hs : step dm st arg (some x) = (st1, true)) :
    headTokens dm (arg :: x :: rest2) st = arg :: headTokens dm rest2 st1 := by
  unfold headTokens
  rw [heads]
  simp only [List.head?_cons]
  rw [hs]
  simp [List.filterMap_map, Function.comp_def]

theorem headTokens_single (dm : DataModel) (arg : String) (st : MainState) :
    headTokens dm [arg] st = [arg] := by
  unfold headTokens
  rw [heads]
  rcases hs : step dm st arg ([] : List String).head? with ⟨st1, b⟩
  cases b <;> simp [heads]

/-- A property of the state that every execution of the loop body preserves
is preserved by the whole loop. -/
theorem parseLoop_preserves (dm : DataModel) (P : MainState → Prop)
    (hstep : ∀ st arg next, P st → P (step dm st arg next).1) :
    ∀ (args : List String) (st : MainState), P st → P (parseLoop dm args st) := by
  intro args st
  induction args, st using parseLoop.induct dm with
  | case1 st => intro h; rwa [parseLoop_nil]
  | case2 arg rest st st1 hs ih =>
    intro h
    rw [parseLoop_noskip dm arg rest st st1 hs]
    exact ih (by have := hstep st arg rest.head? h; rwa [hs] at this)
  | case3 arg st st1 hs =>
    intro h
    rw [parseLoop_single_skip dm arg st st1 hs]
    have := hstep st arg none h
    rwa [show step dm st arg none = (st1, true) from hs] at this
  | case4 arg st st1 x rest2 hs ih =>
    intro h
    rw [parseLoop_skip dm arg x rest2 st st1 hs]
    exact ih (by have := hstep st arg (some x) h; rwa [show step dm st arg (some x) = (st1, true) from hs] at this)

/-- Counting lemma: if an execution of the loop body on a token outside the
class `tok` preserves each level `L k`, and an execution on a token of the
class lifts level `k` to level `k + 1`, then the loop lifts the level by the
number of tokens of the class that it reads as `argv[i]`. -/
theorem parseLoop_levels (dm : DataModel) (tok : String → Prop) [DecidablePred tok]
    (L : Nat → MainState → Prop)
    (hpres : ∀ k st arg next, ¬ tok arg → L k st → L k (step dm st arg next).1)
    (hup : ∀ k st arg next, tok arg → L k st → L (k + 1) (step dm st arg next).1) :
    ∀ (args : List String) (st : MainState) (k : Nat), L k st →
      L (k + (headTokens dm args st).countP (fun a => decide (tok a))) (parseLoop dm args st) := by
  have hone : ∀ k st arg next, L k st →
      L (k + [arg].countP (fun a => decide (tok a))) (step dm st arg next).1 := by
    intro k st arg next h
    by_cases ht : tok arg
    · simpa [List.countP_cons, ht] using hup k st arg next ht h
    · simpa [List.countP_cons, ht] using hpres k st arg next ht h
  intro args st
  induction args, st using parseLoop.induct dm with
  | case1 st => intro k h; simpa [parseLoop_nil, headTokens_nil] using h
  | case2 arg rest st st1 hs ih =>
    intro k h
    rw [parseLoop_noskip dm arg rest st st1 hs, headTokens_noskip dm arg rest st st1 hs]
    have h1 := hone k st arg rest.head? h
    rw [hs] at h1
    have h2 := ih _ h1
    rw [List.countP_cons]
    rw [List.countP_singleton] at h2
    have e : k + (List.countP (fun a => decide (tok a)) (headTokens dm rest st1) +
        if decide (tok arg) = true then 1 else 0) =
        k + (if decide (tok arg) = true then 1 else 0) +
          List.countP (fun a => decide (tok a)) (headTokens dm rest st1) := by omega
    rw [e]; exact h2
  | case3 arg st st1 hs =>
    intro k h
    rw [parseLoop_single_skip dm arg st st1 hs, headTokens_single]
    have h1 := hone k st arg none h
    rwa [show step dm st arg none = (st1, true) from hs] at h1
  | case4 arg st st1 x rest2 hs ih =>
    intro k h
    rw [parseLoop_skip dm arg x rest2 st st1 hs, headTokens_skip dm arg x rest2 st st1 hs]
    have h1 := hone k st arg (some x) h
    rw [show step dm st arg (some x) = (st1, true) from hs] at h1
    have h2 := ih _ h1
    rw [List.countP_cons]
    rw [List.countP_singleton] at h2
    have e : k + (List.countP (fun a => decide (tok a)) (headTokens dm rest2 st1) +
        if decide (tok arg) = true then 1 else 0) =
        k + (if decide (tok arg) = true then 1 else 0) +
          List.countP (fun a => decide (tok a)) (headTokens dm rest2 st1) := by omega
    rw [e]; exact h2

/-! ## Facts on the option word -/

theorem and_clear_favor (n : Nat) : (n &&& (UINT_MAX - OPT_FAVOR_RATIO)) &&& OPT_FAVOR_RATIO = 0 := by
  rw [Nat.and_assoc]
  have : (UINT_MAX - OPT_FAVOR_RATIO) &&& OPT_FAVOR_RATIO = 0 := by decide
  rw [this]; exact Nat.and_zero n

theorem or_bit_and_other (n a b : Nat) (hab : a &&& b = 0) : (n ||| a) &&& b = n &&& b := by
  apply Nat.eq_of_testBit_eq
  intro i
  have h := congrArg (fun m => m.testBit i) hab
  simp only [Nat.testBit_and, Nat.testBit_or, Nat.zero_testBit] at h ⊢
  cases hn : n.testBit i <;> cases ha : a.testBit i <;> cases hb : b.testBit i <;> simp_all

theorem or_bit_and_self (n a : Nat) (ha : a ≠ 0) : (n ||| a) &&& a ≠ 0 := by
  intro h
  apply ha
  apply Nat.eq_of_testBit_eq
  intro i
  have h := congrArg (fun m => m.testBit i) h
  simp only [Nat.testBit_and, Nat.testBit_or, Nat.zero_testBit] at h ⊢
  cases hn : n.testBit i <;> cases ha : a.testBit i <;> simp_all

theorem and_clear_other (n b : Nat) (hb : (UINT_MAX - OPT_FAVOR_RATIO) &&& b = b) :
    (n &&& (UINT_MAX - OPT_FAVOR_RATIO)) &&& b = n &&& b := by
  rw [Nat.and_assoc, hb]

/-! ## The error flag is never cleared -/

theorem step_error_sticky (dm : DataModel) (st : MainState) (arg : String) (next : Option String)
    (h : st.nArgsError ≠ 0) : (step dm st arg next).1.nArgsError ≠ 0 := by
  rcases token_cases arg with rfl | ⟨h1, h2⟩ | rfl | ⟨h1, h2⟩ | rfl | rfl | rfl | rfl | rfl | hp
  · rw [step_dictSep]; split <;> simp [h]
  · rw [step_dictAtt dm st arg next h1 h2]; split <;> simp [h]
  · rw [step_mSep]; repeat' split
    all_goals simp [h]
  · rw [step_mAtt dm st arg next h1 h2]; repeat' split
    all_goals simp [h]
  · rw [step_preferRatio]; split <;> simp [h]
  · rw [step_preferSpeed]; split <;> simp [h]
  · rw [step_v]; split <;> simp [h]
  · rw [step_b]; split <;> simp [h]
  · rw [step_stats]; split <;> simp [h]
  · rw [step_positional dm st arg next hp]; repeat' split
    all_goals simp [h]

theorem parseLoop_error_sticky (dm : DataModel) (args : List String) (st : MainState)
    (h : st.nArgsError ≠ 0) : (parseLoop dm args st).nArgsError ≠ 0 :=
  parseLoop_preserves dm (fun s => s.nArgsError ≠ 0) (step_error_sticky dm) args st h

theorem resolved_of_error (st : MainState) (h : st.nArgsError ≠ 0) : resolved st = none := by
  unfold resolved
  rw [if_pos h]

/-! ## Minimum match size and favor-ratio bit -/

theorem step_minMatchInv (dm : DataModel) (st : MainState) (arg : String) (next : Option String)
    (h : MinMatchInv st) : MinMatchInv (step dm st arg next).1 := by
  by_cases he : st.nArgsError = 0
  swap
  · intro h0; exact absurd h0 (step_error_sticky dm st arg next he)
  have d := h he
  have hv : OPT_VERBOSE &&& OPT_FAVOR_RATIO = 0 := by decide
  have hb : OPT_BACKWARD &&& OPT_FAVOR_RATIO = 0 := by decide
  have hs : OPT_STATS &&& OPT_FAVOR_RATIO = 0 := by decide
  rcases token_cases arg with rfl | ⟨h1, h2⟩ | rfl | ⟨h1, h2⟩ | rfl | rfl | rfl | rfl | rfl | hp
  · rw [step_dictSep]; split <;> simp_all [MinMatchInv]
  · rw [step_dictAtt dm st arg next h1 h2]; split <;> simp_all [MinMatchInv]
  · rw [step_mSep]; repeat' split
    all_goals simp_all [MinMatchInv, and_clear_favor]
  · rw [step_mAtt dm st arg next h1 h2]; repeat' split
    all_goals simp_all [MinMatchInv, and_clear_favor]
  · rw [step_preferRatio]; split <;> simp_all [MinMatchInv]
  · rw [step_preferSpeed]; split <;> simp_all [MinMatchInv, and_clear_favor]
  · rw [step_v]; split <;> simp_all [MinMatchInv, or_bit_and_other]
  · rw [step_b]; split <;> simp_all [MinMatchInv, or_bit_and_other]
  · rw [step_stats]; split <;> simp_all [MinMatchInv, or_bit_and_other]
  · rw [step_positional dm st arg next hp]; repeat' split
    all_goals simp_all [MinMatchInv]

theorem initState_minMatchInv : MinMatchInv initState := by
  intro _
  left
  exact ⟨rfl, by decide⟩

theorem resolved_some (st : MainState) (c : Config) (h : resolved st = some c) :
    st.nArgsError = 0 ∧ st.pszInFilename = some c.pszInFilename ∧
      st.pszOutFilename = some c.pszOutFilename ∧
      c.pszDictionaryFilename = st.pszDictionaryFilename ∧
      c.nOptions = st.nOptions ∧ c.nMinMatchSize = st.nMinMatchSize := by
  unfold resolved at h
  split at h
  · exact absurd h (by simp)
  · rename_i he
    split at h
    · rename_i i o hi ho
      injection h with h
      subst h
      exact ⟨not_not.mp he, hi, ho, rfl, rfl, rfl⟩
    · exact absurd h (by simp)

theorem main_of_resolve_none (dm : DataModel) (lib : Lib) (clock : Nat → Int)
    (argv0 : String) (args : List String) (h : resolve dm args = none) :
    main dm lib clock (argv0 :: args) = (100, [Event.stderr (Line.usage (some argv0))]) := by
  unfold main
  simp only [List.drop_succ_cons, List.drop_zero, List.head?_cons]
  rw [h]

/-- Duplicate lemma: for a class `tok` of tokens and a mark `Seen` on the
state such that reading a token of the class sets the mark or the error flag,
reading one when the mark is set raises the error flag, and mark-or-error is
never undone, two tokens of the class read as `argv[i]` leave the error flag
raised. -/
theorem parseLoop_duplicate (dm : DataModel) (tok : String → Prop) [DecidablePred tok]
    (Seen : MainState → Prop)
    (hpres : ∀ st arg next, Seen st ∨ st.nArgsError ≠ 0 →
      Seen (step dm st arg next).1 ∨ (step dm st arg next).1.nArgsError ≠ 0)
    (hfirst : ∀ st arg next, tok arg →
      Seen (step dm st arg next).1 ∨ (step dm st arg next).1.nArgsError ≠ 0)
    (hsecond : ∀ st arg next, tok arg → Seen st ∨ st.nArgsError ≠ 0 →
      (step dm st arg next).1.nArgsError ≠ 0)
    (args : List String) (st : MainState)
    (h : 2 ≤ (headTokens dm args st).countP (fun a => decide (tok a))) :
    (parseLoop dm args st).nArgsError ≠ 0 := by
  let L : Nat → MainState → Prop := fun k s =>
    match k with
    | 0 => True
    | 1 => Seen s ∨ s.nArgsError ≠ 0
    | _ + 2 => s.nArgsError ≠ 0
  have key := parseLoop_levels dm tok L
    (by
      intro k s arg next _ hk
      match k, hk with
      | 0, _ => trivial
      | 1, hk => exact hpres s arg next hk
      | _ + 2, hk => exact step_error_sticky dm s arg next hk)
    (by
      intro k s arg next ht hk
      match k, hk with
      | 0, _ => exact hfirst s arg next ht
      | 1, hk => exact hsecond s arg next ht hk
      | _ + 2, hk => exact step_error_sticky dm s arg next hk)
    args st 0 trivial
  obtain ⟨m, hm⟩ : ∃ m, (headTokens dm args st).countP (fun a => decide (tok a)) = m + 2 :=
    ⟨_, (Nat.sub_add_cancel h).symm⟩
  rw [hm, Nat.zero_add] at key
  exact key

/-- C1: a configuration produced by the option resolver never has both a
minimum match size of at least 2 and the favor-ratio bit set. -/
theorem resolve_explicit_min_excludes_favor_ratio (dm : DataModel) (args : List String)
    (c : Config) (h : resolve dm args = some c) :
    ¬ ((2 : Int) ≤ c.nMinMatchSize ∧ c.nOptions &&& OPT_FAVOR_RATIO ≠ 0) := by
  obtain ⟨he, -, -, -, ho, hm⟩ := resolved_some _ c h
  have inv := parseLoop_preserves dm MinMatchInv (step_minMatchInv dm) args initState
    initState_minMatchInv he
  rw [ho, hm]
  rintro ⟨h2, hf⟩
  rcases inv with ⟨h0, -⟩ | ⟨-, -, -, hz⟩
  · rw [h0] at h2; exact absurd h2 (by decide)
  · exact hf hz

theorem resolve_explicit_min_excludes_favor_ratio_witness :
    resolve DataModel.long64 ["-v", "-m", "4", "in", "out"] =
        some { pszInFilename := "in", pszOutFilename := "out", pszDictionaryFilename := none,
               nOptions := 1, nMinMatchSize := 4 } ∧
      ¬ ((2 : Int) ≤ 4 ∧ 1 &&& OPT_FAVOR_RATIO ≠ 0) :=
  ⟨by decide,
   resolve_explicit_min_excludes_favor_ratio DataModel.long64 ["-v", "-m", "4", "in", "out"]
    { pszInFilename := "in", pszOutFilename := "out", pszDictionaryFilename := none,
      nOptions := 1, nMinMatchSize := 4 } (by decide)⟩

/-! ## Repeated minimum-match specifications -/

theorem step_defined_or_error (dm : DataModel) (st : MainState) (arg : String)
    (next : Option String) (h : st.nMinMatchDefined ≠ 0 ∨ st.nArgsError ≠ 0) :
    (step dm st arg next).1.nMinMatchDefined ≠ 0 ∨ (step dm st arg next).1.nArgsError ≠ 0 := by
  rcases token_cases arg with rfl | ⟨h1, h2⟩ | rfl | ⟨h1, h2⟩ | rfl | rfl | rfl | rfl | rfl | hp
  · rw [step_dictSep]; split <;> simp_all
  · rw [step_dictAtt dm st arg next h1 h2]; split <;> simp_all
  · rw [step_mSep]; repeat' split
    all_goals simp_all
  · rw [step_mAtt dm st arg next h1 h2]; repeat' split
    all_goals simp_all
  · rw [step_preferRatio]; split <;> simp_all
  · rw [step_preferSpeed]; split <;> simp_all
  · rw [step_v]; split <;> simp_all
  · rw [step_b]; split <;> simp_all
  · rw [step_stats]; split <;> simp_all
  · rw [step_positional dm st arg next hp]; repeat' split
    all_goals simp_all

theorem minMatchSpec_cases (arg : String) (h : isMinMatchSpec arg) :
    arg = "-m" ∨ (arg ≠ "-m" ∧ isMOption arg) ∨ arg = "--prefer-ratio" ∨
      arg = "--prefer-speed" := by
  unfold isMinMatchSpec at h
  tauto

theorem step_spec_first (dm : DataModel) (st : MainState) (arg : String)
    (next : Option String) (ht : isMinMatchSpec arg) :
    (step dm st arg next).1.nMinMatchDefined ≠ 0 ∨ (step dm st arg next).1.nArgsError ≠ 0 := by
  rcases minMatchSpec_cases arg ht with rfl | ⟨h1, h2⟩ | rfl | rfl
  · rw [step_mSep]; repeat' split
    all_goals simp_all
  · rw [step_mAtt dm st arg next h1 h2]; repeat' split
    all_goals simp_all
  · rw [step_preferRatio]; split <;> simp_all
  · rw [step_preferSpeed]; split <;> simp_all

theorem step_spec_second (dm : DataModel) (st : MainState) (arg : String)
    (next : Option String) (ht : isMinMatchSpec arg)
    (h : st.nMinMatchDefined ≠ 0 ∨ st.nArgsError ≠ 0) :
    (step dm st arg next).1.nArgsError ≠ 0 := by
  rcases h with h | h
  swap
  · exact step_error_sticky dm st arg next h
  rcases minMatchSpec_cases arg ht with rfl | ⟨h1, h2⟩ | rfl | rfl
  · rw [step_mSep, if_neg h]; simp
  · rw [step_mAtt dm st arg next h1 h2, if_neg h]; simp
  · rw [step_preferRatio, if_neg h]; simp
  · rw [step_preferSpeed, if_neg h]; simp

/-- C3: when the loop reads two (or more) minimum-match specifications as
options, in any mix of `-m`, `-m<n>`, `--prefer-ratio` and `--prefer-speed`
and whatever the other tokens, the resolver rejects the list and `main`
returns 100. -/
theorem two_min_match_specs_rejected (dm : DataModel) (args : List String)
    (h : 2 ≤ (headTokens dm args initState).countP (fun a => decide (isMinMatchSpec a))) :
    resolve dm args = none ∧
      ∀ (lib : Lib) (clock : Nat → Int) (argv0 : String),
        (main dm lib clock (argv0 :: args)).1 = 100 := by
  have herr := parseLoop_duplicate dm isMinMatchSpec (fun s => s.nMinMatchDefined ≠ 0)
    (step_defined_or_error dm) (step_spec_first dm) (step_spec_second dm) args initState h
  have hnone : resolve dm args = none := resolved_of_error _ herr
  refine ⟨hnone, ?_⟩
  intro lib clock argv0
  rw [main_of_resolve_none dm lib clock argv0 args hnone]

theorem two_min_match_specs_rejected_witness :
    2 ≤ (headTokens DataModel.long64 ["--prefer-ratio", "in", "-m", "3", "out"]
          initState).countP (fun a => decide (isMinMatchSpec a)) ∧
      resolve DataModel.long64 ["--prefer-ratio", "in", "-m", "3", "out"] = none :=
  ⟨by decide,
   (two_min_match_specs_rejected DataModel.long64 ["--prefer-ratio", "in", "-m", "3", "out"]
    (by decide)).1⟩

/-! ## Repeated flags and dictionary options -/

theorem step_bit_or_error (dm : DataModel) (b : Nat)
    (hb : b = OPT_VERBOSE ∨ b = OPT_BACKWARD ∨ b = OPT_STATS)
    (st : MainState) (arg : String) (next : Option String)
    (h : st.nOptions &&& b ≠ 0 ∨ st.nArgsError ≠ 0) :
    (step dm st arg next).1.nOptions &&& b ≠ 0 ∨ (step dm st arg next).1.nArgsError ≠ 0 := by
  have hclr : (UINT_MAX - OPT_FAVOR_RATIO) &&& b = b := by
    rcases hb with rfl | rfl | rfl <;> decide
  have hself : ∀ n : Nat, (n ||| b) &&& b ≠ 0 := by
    intro n
    apply or_bit_and_self
    rcases hb with rfl | rfl | rfl <;> decide
  have hother : ∀ n a : Nat, a &&& b = 0 → (n ||| a) &&& b = n &&& b :=
    fun n a hab => or_bit_and_other n a b hab
  rcases token_cases arg with rfl | ⟨h1, h2⟩ | rfl | ⟨h1, h2⟩ | rfl | rfl | rfl | rfl | rfl | hp
  · rw [step_dictSep]; split <;> simp_all
  · rw [step_dictAtt dm st arg next h1 h2]; split <;> simp_all
  · rw [step_mSep]; repeat' split
    all_goals simp_all [and_clear_other]
  · rw [step_mAtt dm st arg next h1 h2]; repeat' split
    all_goals simp_all [and_clear_other]
  · rw [step_preferRatio]; split <;> simp_all
  · rw [step_preferSpeed]; split <;> simp_all [and_clear_other]
  · rw [step_v]; split
    · rcases hb with rfl | rfl | rfl
      · left; exact hself _
      · show (st.nOptions ||| OPT_VERBOSE) &&& OPT_BACKWARD ≠ 0 ∨ st.nArgsError ≠ 0
        rw [hother _ _ (by decide)]
        exact h
      · show (st.nOptions ||| OPT_VERBOSE) &&& OPT_STATS ≠ 0 ∨ st.nArgsError ≠ 0
        rw [hother _ _ (by decide)]
        exact h
    · right; simp
  · rw [step_b]; split
    · rcases hb with rfl | rfl | rfl
      · show (st.nOptions ||| OPT_BACKWARD) &&& OPT_VERBOSE ≠ 0 ∨ st.nArgsError ≠ 0
        rw [hother _ _ (by decide)]
        exact h
      · left; exact hself _
      · show (st.nOptions ||| OPT_BACKWARD) &&& OPT_STATS ≠ 0 ∨ st.nArgsError ≠ 0
        rw [hother _ _ (by decide)]
        exact h
    · right; simp
  · rw [step_stats]; split
    · rcases hb with rfl | rfl | rfl
      · show (st.nOptions ||| OPT_STATS) &&& OPT_VERBOSE ≠ 0 ∨ st.nArgsError ≠ 0
        rw [hother _ _ (by decide)]
        exact h
      · show (st.nOptions ||| OPT_STATS) &&& OPT_BACKWARD ≠ 0 ∨ st.nArgsError ≠ 0
        rw [hother _ _ (by decide)]
        exact h
      · left; exact hself _
    · right; simp
  · rw [step_positional dm st arg next hp]; repeat' split
    all_goals simp_all

theorem step_v_first (dm : DataModel) (st : MainState) (arg : String) (next : Option String)
    (ht : arg = "-v") :
    (step dm st arg next).1.nOptions &&& OPT_VERBOSE ≠ 0 ∨
      (step dm st arg next).1.nArgsError ≠ 0 := by
  subst ht
  rw [step_v]; split
  · left; exact or_bit_and_self _ _ (by decide)
  · right; simp

theorem step_v_second (dm : DataModel) (st : MainState) (arg : String) (next : Option String)
    (ht : arg = "-v") (h : st.nOptions &&& OPT_VERBOSE ≠ 0 ∨ st.nArgsError ≠ 0) :
    (step dm st arg next).1.nArgsError ≠ 0 := by
  rcases h with h | h
  swap
  · exact step_error_sticky dm st arg next h
  subst ht
  rw [step_v, if_neg h]; simp

theorem step_b_first (dm : DataModel) (st : MainState) (arg : String) (next : Option String)
    (ht : arg = "-b") :
    (step dm st arg next).1.nOptions &&& OPT_BACKWARD ≠ 0 ∨
      (step dm st arg next).1.nArgsError ≠ 0 := by
  subst ht
  rw [step_b]; split
  · left; exact or_bit_and_self _ _ (by decide)
  · right; simp

theorem step_b_second (dm : DataModel) (st : MainState) (arg : String) (next : Option String)
    (ht : arg = "-b") (h : st.nOptions &&& OPT_BACKWARD ≠ 0 ∨ st.nArgsError ≠ 0) :
    (step dm st arg next).1.nArgsError ≠ 0 := by
  rcases h with h | h
  swap
  · exact step_error_sticky dm st arg next h
  subst ht
  rw [step_b, if_neg h]; simp

theorem step_stats_first (dm : DataModel) (st : MainState) (arg : String)
    (next : Option String) (ht : arg = "-stats") :
    (step dm st arg next).1.nOptions &&& OPT_STATS ≠ 0 ∨
      (step dm st arg next).1.nArgsError ≠ 0 := by
  subst ht
  rw [step_stats]; split
  · left; exact or_bit_and_self _ _ (by decide)
  · right; simp

theorem step_stats_second (dm : DataModel) (st : MainState) (arg : String)
    (next : Option String) (ht : arg = "-stats")
    (h : st.nOptions &&& OPT_STATS ≠ 0 ∨ st.nArgsError ≠ 0) :
    (step dm st arg next).1.nArgsError ≠ 0 := by
  rcases h with h | h
  swap
  · exact step_error_sticky dm st arg next h
  subst ht
  rw [step_stats, if_neg h]; simp

theorem step_dict_or_error (dm : DataModel) (st : MainState) (arg : String)
    (next : Option String) (h : st.pszDictionaryFilename ≠ none ∨ st.nArgsError ≠ 0) :
    (step dm st arg next).1.pszDictionaryFilename ≠ none ∨
      (step dm st arg next).1.nArgsError ≠ 0 := by
  rcases token_cases arg with rfl | ⟨h1, h2⟩ | rfl | ⟨h1, h2⟩ | rfl | rfl | rfl | rfl | rfl | hp
  · rw [step_dictSep]; split <;> simp_all
  · rw [step_dictAtt dm st arg next h1 h2]; split <;> simp_all
  · rw [step_mSep]; repeat' split
    all_goals simp_all
  · rw [step_mAtt dm st arg next h1 h2]; repeat' split
    all_goals simp_all
  · rw [step_preferRatio]; split <;> simp_all
  · rw [step_preferSpeed]; split <;> simp_all
  · rw [step_v]; split <;> simp_all
  · rw [step_b]; split <;> simp_all
  · rw [step_stats]; split <;> simp_all
  · rw [step_positional dm st arg next hp]; repeat' split
    all_goals simp_all

theorem dictOption_cases (arg : String) (h : isDictOption arg) :
    arg = "-D" ∨ (arg ≠ "-D" ∧ isDictOption arg) := by
  tauto

theorem step_dict_first (dm : DataModel) (st : MainState) (arg : String)
    (next : Option String) (ht : isDictOption arg) :
    (step dm st arg next).1.pszDictionaryFilename ≠ none ∨
      (step dm st arg next).1.nArgsError ≠ 0 := by
  rcases dictOption_cases arg ht with rfl | ⟨h1, h2⟩
  · rw [step_dictSep]; split <;> simp_all
  · rw [step_dictAtt dm st arg next h1 h2]; split <;> simp_all

theorem step_dict_second (dm : DataModel) (st : MainState) (arg : String)
    (next : Option String) (ht : isDictOption arg)
    (h : st.pszDictionaryFilename ≠ none ∨ st.nArgsError ≠ 0) :
    (step dm st arg next).1.nArgsError ≠ 0 := by
  rcases h with h | h
  swap
  · exact step_error_sticky dm st arg next h
  rcases dictOption_cases arg ht with rfl | ⟨h1, h2⟩
  · rw [step_dictSep]; split <;> simp_all
  · rw [step_dictAtt dm st arg next h1 h2]; split <;> simp_all

/-- C4: when the loop reads `-v` twice, `-b` twice, `-stats` twice, or two
dictionary options (`-D <path>` or `-D<path>`, in any mix) as options, the
resolver rejects the list and `main` returns 100, whatever the other tokens. -/
theorem duplicate_flag_rejected (dm : DataModel) (args : List String)
    (h : 2 ≤ (headTokens dm args initState).countP (fun a => decide (a = "-v")) ∨
      2 ≤ (headTokens dm args initState).countP (fun a => decide (a = "-b")) ∨
      2 ≤ (headTokens dm args initState).countP (fun a => decide (a = "-stats")) ∨
      2 ≤ (headTokens dm args initState).countP (fun a => decide (isDictOption a))) :
    resolve dm args = none ∧
      ∀ (lib : Lib) (clock : Nat → Int) (argv0 : String),
        (main dm lib clock (argv0 :: args)).1 = 100 := by
  have herr : (parseLoop dm args initState).nArgsError ≠ 0 := by
    rcases h with h | h | h | h
    · exact parseLoop_duplicate dm (fun a => a = "-v") (fun s => s.nOptions &&& OPT_VERBOSE ≠ 0)
        (step_bit_or_error dm OPT_VERBOSE (Or.inl rfl)) (step_v_first dm) (step_v_second dm)
        args initState h
    · exact parseLoop_duplicate dm (fun a => a = "-b") (fun s => s.nOptions &&& OPT_BACKWARD ≠ 0)
        (step_bit_or_error dm OPT_BACKWARD (Or.inr (Or.inl rfl))) (step_b_first dm)
        (step_b_second dm) args initState h
    · exact parseLoop_duplicate dm (fun a => a = "-stats")
        (fun s => s.nOptions &&& OPT_STATS ≠ 0)
        (step_bit_or_error dm OPT_STATS (Or.inr (Or.inr rfl))) (step_stats_first dm)
        (step_stats_second dm) args initState h
    · exact parseLoop_duplicate dm isDictOption (fun s => s.pszDictionaryFilename ≠ none)
        (step_dict_or_error dm) (step_dict_first dm) (step_dict_second dm) args initState h
  have hnone : resolve dm args = none := resolved_of_error _ herr
  refine ⟨hnone, ?_⟩
  intro lib clock argv0
  rw [main_of_resolve_none dm lib clock argv0 args hnone]

theorem duplicate_flag_rejected_witness :
    2 ≤ (headTokens DataModel.long32 ["-D", "d1", "in", "-Dd2", "out"]
          initState).countP (fun a => decide (isDictOption a)) ∧
      resolve DataModel.long32 ["-D", "d1", "in", "-Dd2", "out"] = none :=
  ⟨by decide,
   (duplicate_flag_rejected DataModel.long32 ["-D", "d1", "in", "-Dd2", "out"]
    (Or.inr (Or.inr (Or.inr (by decide))))).1⟩

/-! ## Positional arguments -/

theorem step_nonpositional_names (dm : DataModel) (st : MainState) (arg : String)
    (next : Option String) (hn : ¬ isPositional arg) :
    (step dm st arg next).1.pszInFilename = st.pszInFilename ∧
      (step dm st arg next).1.pszOutFilename = st.pszOutFilename := by
  rcases token_cases arg with rfl | ⟨h1, h2⟩ | rfl | ⟨h1, h2⟩ | rfl | rfl | rfl | rfl | rfl | hp
  · rw [step_dictSep]; split <;> simp
  · rw [step_dictAtt dm st arg next h1 h2]; split <;> simp
  · rw [step_mSep]; repeat' split
    all_goals simp
  · rw [step_mAtt dm st arg next h1 h2]; repeat' split
    all_goals simp
  · rw [step_preferRatio]; split <;> simp
  · rw [step_preferSpeed]; split <;> simp
  · rw [step_v]; split <;> simp
  · rw [step_b]; split <;> simp
  · rw [step_stats]; split <;> simp
  · exact absurd hp hn

theorem step_positionalLevel_pres (dm : DataModel) (k : Nat) (st : MainState) (arg : String)
    (next : Option String) (hn : ¬ isPositional arg) (h : PositionalLevel k st) :
    PositionalLevel k (step dm st arg next).1 := by
  obtain ⟨hi, ho⟩ := step_nonpositional_names dm st arg next hn
  match k, h with
  | 0, _ => trivial
  | 1, h =>
    show _ ≠ none ∨ _
    rcases h with h | h
    · left; rw [hi]; exact h
    · right; exact step_error_sticky dm st arg next h
  | 2, h =>
    show (_ ≠ none ∧ _ ≠ none) ∨ _
    rcases h with h | h
    · left; rw [hi, ho]; exact h
    · right; exact step_error_sticky dm st arg next h
  | _ + 3, h => exact step_error_sticky dm st arg next h

theorem step_positionalLevel_up (dm : DataModel) (k : Nat) (st : MainState) (arg : String)
    (next : Option String) (hp : isPositional arg) (h : PositionalLevel k st) :
    PositionalLevel (k + 1) (step dm st arg next).1 := by
  match k, h with
  | 0, _ =>
    show _ ≠ none ∨ _
    rw [step_positional dm st arg next hp]
    repeat' split
    all_goals simp_all
  | 1, h =>
    show (_ ≠ none ∧ _ ≠ none) ∨ _
    rcases h with h | h
    · rw [step_positional dm st arg next hp]
      repeat' split
      all_goals simp_all
    · right; exact step_error_sticky dm st arg next h
  | 2, h =>
    show _ ≠ 0
    rcases h with h | h
    · rw [step_positional dm st arg next hp]
      repeat' split
      all_goals simp_all
    · exact step_error_sticky dm st arg next h
  | _ + 3, h => exact step_error_sticky dm st arg next h

theorem step_namesFilled_pres (dm : DataModel) (k : Nat) (st : MainState) (arg : String)
    (next : Option String) (hn : ¬ isPositional arg) (h : namesFilled st ≤ k) :
    namesFilled (step dm st arg next).1 ≤ k := by
  obtain ⟨hi, ho⟩ := step_nonpositional_names dm st arg next hn
  unfold namesFilled at h ⊢
  rw [hi, ho]; exact h

theorem step_namesFilled_up (dm : DataModel) (k : Nat) (st : MainState) (arg : String)
    (next : Option String) (hp : isPositional arg) (h : namesFilled st ≤ k) :
    namesFilled (step dm st arg next).1 ≤ k + 1 := by
  rw [step_positional dm st arg next hp]
  unfold namesFilled at h ⊢
  cases hi : st.pszInFilename <;> cases ho : st.pszOutFilename <;>
    simp only [hi, ho] at h ⊢ <;> simp at h ⊢ <;> omega

theorem resolved_of_names (st : MainState) (h : namesFilled st < 2) : resolved st = none := by
  unfold resolved
  split
  · rfl
  · unfold namesFilled at h
    split
    · rename_i hi ho
      rw [hi, ho] at h
      simp at h
    · rfl

/-- C5: when the loop reads three or more tokens as positional arguments, or
fewer than two (input or output name missing), the resolver rejects the list
and `main` returns 100. -/
theorem positional_count_rejected (dm : DataModel) (args : List String)
    (h : 3 ≤ (headTokens dm args initState).countP (fun a => decide (isPositional a)) ∨
      (headTokens dm args initState).countP (fun a => decide (isPositional a)) < 2) :
    resolve dm args = none ∧
      ∀ (lib : Lib) (clock : Nat → Int) (argv0 : String),
        (main dm lib clock (argv0 :: args)).1 = 100 := by
  have hnone : resolve dm args = none := by
    rcases h with h | h
    · have key := parseLoop_levels dm isPositional PositionalLevel
        (step_positionalLevel_pres dm) (step_positionalLevel_up dm) args initState 0 trivial
      obtain ⟨m, hm⟩ : ∃ m, (headTokens dm args initState).countP
          (fun a => decide (isPositional a)) = m + 3 := ⟨_, (Nat.sub_add_cancel h).symm⟩
      rw [hm, Nat.zero_add] at key
      exact resolved_of_error _ key
    · have key := parseLoop_levels dm isPositional (fun k s => namesFilled s ≤ k)
        (step_namesFilled_pres dm) (step_namesFilled_up dm) args initState 0
        (by decide)
      rw [Nat.zero_add] at key
      exact resolved_of_names _ (lt_of_le_of_lt key h)
  refine ⟨hnone, ?_⟩
  intro lib clock argv0
  rw [main_of_resolve_none dm lib clock argv0 args hnone]

theorem positional_count_rejected_witness :
    (3 ≤ (headTokens DataModel.long64 ["-D", "-v", "in"] initState).countP
          (fun a => decide (isPositional a)) ∨
        (headTokens DataModel.long64 ["-D", "-v", "in"] initState).countP
          (fun a => decide (isPositional a)) < 2) ∧
      resolve DataModel.long64 ["-D", "-v", "in"] = none :=
  ⟨Or.inr (by decide),
   (positional_count_rejected DataModel.long64 ["-D", "-v", "in"] (Or.inr (by decide))).1⟩

/-! ## Usage errors and the exit code -/

/-- C6: on an argument vector that the resolver rejects, `main` returns 100
and its only effect is the usage text on the diagnostic stream, whatever the
engine and the clock are: `do_compress`, the engine and the clock are not
invoked and no configuration is passed on. -/
theorem rejected_never_reaches_engine (dm : DataModel) (argv : List String)
    (h : resolve dm (argv.drop 1) = none) (lib : Lib) (clock : Nat → Int) :
    main dm lib clock argv = (100, [Event.stderr (Line.usage argv.head?)]) := by
  unfold main
  rw [h]

theorem rejected_never_reaches_engine_witness :
    resolve DataModel.long64 (["lzsa", "-m", "6", "in", "out"].drop 1) = none ∧
      ∀ (lib : Lib) (clock : Nat → Int),
        main DataModel.long64 lib clock ["lzsa", "-m", "6", "in", "out"] =
          (100, [Event.stderr (Line.usage (some "lzsa"))]) :=
  ⟨by decide,
   fun lib clock =>
    rejected_never_reaches_engine DataModel.long64 ["lzsa", "-m", "6", "in", "out"]
      (by decide) lib clock⟩

/-- C7: `do_compress` returns 0 exactly when the status returned by the engine
is `LZSA_OK` (0), and returns 100 for every other status, named or not,
whatever the options. -/
theorem do_compress_exit_code (lib : Lib) (clock : Nat → Int)
    (pszInFilename pszOutFilename : String) (pszDictionaryFilename : Option String)
    (nOptions : Nat) (nMinMatchSize : Int) :
    ((do_compress lib clock pszInFilename pszOutFilename pszDictionaryFilename nOptions
        nMinMatchSize).1 = 0 ↔
      (lib.lzsa_compress_file pszInFilename pszOutFilename pszDictionaryFilename
        (engineFlags lib nOptions) nMinMatchSize).nStatus = LZSA_OK) ∧
    ((lib.lzsa_compress_file pszInFilename pszOutFilename pszDictionaryFilename
        (engineFlags lib nOptions) nMinMatchSize).nStatus ≠ LZSA_OK →
      (do_compress lib clock pszInFilename pszOutFilename pszDictionaryFilename nOptions
        nMinMatchSize).1 = 100) := by
  unfold do_compress LZSA_OK
  by_cases hs : (lib.lzsa_compress_file pszInFilename pszOutFilename pszDictionaryFilename
      (engineFlags lib nOptions) nMinMatchSize).nStatus = 0
  · simp [hs]
  · simp [hs]

/-! ## Two positional tokens -/

/-- C10: two tokens that match no option pattern are accepted as input and
output name, with the default options (only the favor-ratio bit set: verbose,
backward and stats off), no dictionary and minimum match size 0. -/
theorem two_positionals_accepted (dm : DataModel) (a b : String)
    (ha : isPositional a) (hb : isPositional b) :
    resolve dm [a, b] =
      some { pszInFilename := a, pszOutFilename := b, pszDictionaryFilename := none,
             nOptions := OPT_FAVOR_RATIO, nMinMatchSize := 0 } := by
  unfold resolve
  rw [parseLoop_noskip dm a [b] initState { initState with pszInFilename := some a }
    (by rw [step_positional dm _ a _ ha]; rfl)]
  rw [parseLoop_noskip dm b [] { initState with pszInFilename := some a }
    { initState with pszInFilename := some a, pszOutFilename := some b }
    (by rw [step_positional dm _ b _ hb]; rfl)]
  rw [parseLoop_nil]
  rfl

theorem two_positionals_accepted_witness :
    (isPositional "in.bin" ∧ isPositional "--out") ∧
      resolve DataModel.long32 ["in.bin", "--out"] =
        some { pszInFilename := "in.bin", pszOutFilename := "--out",
               pszDictionaryFilename := none, nOptions := OPT_FAVOR_RATIO,
               nMinMatchSize := 0 } :=
  ⟨⟨by decide, by decide⟩,
   two_positionals_accepted DataModel.long32 "in.bin" "--out" (by decide) (by decide)⟩

/-! ## Positions read as `argv[i]` -/

theorem heads_noskip (dm : DataModel) (arg : String) (rest : List String)
    (st st1 : MainState) (hs : step dm st arg rest.head? = (st1, false)) (k : Nat) :
    k + 1 ∈ heads dm (arg :: rest) st ↔ k ∈ heads dm rest st1 := by
  rw [heads, hs]
  simp

theorem heads_skip (dm : DataModel) (arg x : String) (rest2 : List String)
    (st st1 : MainState) (hs : step dm st arg (some x) = (st1, true)) (k : Nat) :
    k + 2 ∈ heads dm (arg :: x :: rest2) st ↔ k ∈ heads dm rest2 st1 := by
  rw [heads]
  simp only [List.head?_cons]
  rw [hs]
  simp

theorem heads_skip_one (dm : DataModel) (arg : String) (rest : List String)
    (st st1 : MainState) (hs : step dm st arg rest.head? = (st1, true)) :
    1 ∉ heads dm (arg :: rest) st := by
  rw [heads, hs]
  cases rest <;> simp

theorem headTokens_head (dm : DataModel) (arg : String) (rest : List String) (st : MainState) :
    arg ∈ headTokens dm (arg :: rest) st := by
  rcases hs : step dm st arg rest.head? with ⟨st1, b⟩
  cases b
  · rw [headTokens_noskip dm arg rest st st1 hs]; exact List.mem_cons_self _ _
  · cases rest with
    | nil => rw [headTokens_single]; exact List.mem_cons_self _ _
    | cons x rest2 =>
      rw [headTokens_skip dm arg x rest2 st st1 hs]; exact List.mem_cons_self _ _

theorem parseLoop_cons_error (dm : DataModel) (arg : String) (rest : List String)
    (st : MainState) (h : (step dm st arg rest.head?).1.nArgsError ≠ 0) :
    (parseLoop dm (arg :: rest) st).nArgsError ≠ 0 := by
  rcases hs : step dm st arg rest.head? with ⟨st1, b⟩
  rw [hs] at h
  cases b
  · rw [parseLoop_noskip dm arg rest st st1 hs]
    exact parseLoop_error_sticky dm rest st1 h
  · cases rest with
    | nil => rw [parseLoop_single_skip dm arg st st1 hs]; exact h
    | cons x rest2 =>
      rw [parseLoop_skip dm arg x rest2 st st1 hs]
      exact parseLoop_error_sticky dm rest2 st1 h

/-- Replacement lemma.  Two argument lists `pre ++ A` and `pre ++ B` are
resolved alike from a state `st` when the loop reads position `pre.length` of
the first list as `argv[i]`, provided that: the body executed on a token of
`pre` that does not consume the first token of `A` acts alike when followed by
the first token of `B` (or raises the error flag in both cases); and the
continuations `A` and `B` are resolved alike from every state.  The
invariant `Q` and the token class `bad` restrict the states and the tokens
read in `pre ++ B` for which this is required. -/
theorem replace_at_head (dm : DataModel) (bad : String → Prop) (Q : MainState → Prop)
    (A B : List String)
    (hQ : ∀ s t n, Q s → ¬ bad t → Q (step dm s t n).1)
    (hcompat : ∀ s t, ¬ bad t → (step dm s t A.head?).2 = false →
      step dm s t B.head? = step dm s t A.head? ∨
        ((step dm s t A.head?).1.nArgsError ≠ 0 ∧ (step dm s t B.head?).1.nArgsError ≠ 0))
    (hcont : ∀ s, Q s → (∀ t ∈ headTokens dm B s, ¬ bad t) →
      resolved (parseLoop dm A s) = resolved (parseLoop dm B s)) :
    ∀ (n : Nat) (pre : List String) (st : MainState), pre.length = n → Q st →
      pre.length ∈ heads dm (pre ++ A) st →
      (∀ t ∈ headTokens dm (pre ++ B) st, ¬ bad t) →
      resolved (parseLoop dm (pre ++ A) st) = resolved (parseLoop dm (pre ++ B) st) := by
  intro n
  induction n using Nat.strong_induction_on with
  | _ n ih =>
    intro pre st hlen hq hhead hbad
    match pre, hlen with
    | [], _ => exact hcont st hq hbad
    | [t], _ =>
      have htb : ¬ bad t := hbad t (headTokens_head dm t B st)
      rcases hsA : step dm st t A.head? with ⟨s1, c⟩
      cases c
      · rcases hcompat st t htb (by rw [hsA]) with he | ⟨e1, e2⟩
        · rw [hsA] at he
          have hq1 : Q s1 := by
            have := hQ st t A.head? hq htb
            rwa [hsA] at this
          show resolved (parseLoop dm (t :: A) st) = resolved (parseLoop dm (t :: B) st)
          rw [parseLoop_noskip dm t A st s1 hsA, parseLoop_noskip dm t B st s1 he]
          apply hcont s1 hq1
          intro u hu
          apply hbad u
          show u ∈ headTokens dm (t :: B) st
          rw [headTokens_noskip dm t B st s1 he]
          exact List.mem_cons_of_mem _ hu
        · show resolved (parseLoop dm (t :: A) st) = resolved (parseLoop dm (t :: B) st)
          rw [resolved_of_error _ (parseLoop_cons_error dm t A st e1),
            resolved_of_error _ (parseLoop_cons_error dm t B st e2)]
      · exact absurd hhead (heads_skip_one dm t A st s1 hsA)
    | t :: x :: rest, hlen =>
      have htb : ¬ bad t := hbad t (headTokens_head dm t _ st)
      rcases hs : step dm st t (some x) with ⟨s1, c⟩
      have hq1 : Q s1 := by
        have := hQ st t (some x) hq htb
        rwa [hs] at this
      cases c
      · show resolved (parseLoop dm (t :: (x :: rest ++ A)) st) =
          resolved (parseLoop dm (t :: (x :: rest ++ B)) st)
        rw [parseLoop_noskip dm t (x :: rest ++ A) st s1 hs,
          parseLoop_noskip dm t (x :: rest ++ B) st s1 hs]
        apply ih (x :: rest).length (by simp at hlen ⊢; omega) (x :: rest) s1 rfl hq1
        · exact (heads_noskip dm t (x :: rest ++ A) st s1 hs _).mp hhead
        · intro u hu
          apply hbad u
          show u ∈ headTokens dm (t :: (x :: rest ++ B)) st
          rw [headTokens_noskip dm t (x :: rest ++ B) st s1 hs]
          exact List.mem_cons_of_mem _ hu
      · show resolved (parseLoop dm (t :: x :: (rest ++ A)) st) =
          resolved (parseLoop dm (t :: x :: (rest ++ B)) st)
        rw [parseLoop_skip dm t x (rest ++ A) st s1 hs,
          parseLoop_skip dm t x (rest ++ B) st s1 hs]
        apply ih rest.length (by simp at hlen ⊢; omega) rest s1 rfl hq1
        · exact (heads_skip dm t x (rest ++ A) st s1 hs _).mp hhead
        · intro u hu
          apply hbad u
          show u ∈ headTokens dm (t :: x :: (rest ++ B)) st
          rw [headTokens_skip dm t x (rest ++ B) st s1 hs]
          exact List.mem_cons_of_mem _ hu

/-- The state in which the loop reaches a position that it reads as `argv[i]`. -/
theorem reach_head (dm : DataModel) (A : List String) :
    ∀ (n : Nat) (pre : List String) (st : MainState), pre.length = n →
      pre.length ∈ heads dm (pre ++ A) st →
      ∃ s, parseLoop dm (pre ++ A) st = parseLoop dm A s ∧
        ∀ P : MainState → Prop, (∀ s a n, P s → P (step dm s a n).1) → P st → P s := by
  intro n
  induction n using Nat.strong_induction_on with
  | _ n ih =>
    intro pre st hlen hhead
    match pre, hlen with
    | [], _ => exact ⟨st, rfl, fun _ _ h => h⟩
    | [t], _ =>
      rcases hsA : step dm st t A.head? with ⟨s1, c⟩
      cases c
      · refine ⟨s1, parseLoop_noskip dm t A st s1 hsA, ?_⟩
        intro P hP h
        have := hP st t A.head? h
        rwa [hsA] at this
      · exact absurd hhead (heads_skip_one dm t A st s1 hsA)
    | t :: x :: rest, hlen =>
      rcases hs : step dm st t (some x) with ⟨s1, c⟩
      have hstep : ∀ P : MainState → Prop, (∀ s a n, P s → P (step dm s a n).1) → P st → P s1 := by
        intro P hP h
        have := hP st t (some x) h
        rwa [hs] at this
      cases c
      · obtain ⟨s, h1, h2⟩ := ih (x :: rest).length (by simp at hlen ⊢; omega) (x :: rest) s1 rfl
          ((heads_noskip dm t (x :: rest ++ A) st s1 hs _).mp hhead)
        refine ⟨s, ?_, fun P hP h => h2 P hP (hstep P hP h)⟩
        show parseLoop dm (t :: (x :: rest ++ A)) st = _
        rw [parseLoop_noskip dm t (x :: rest ++ A) st s1 hs]
        exact h1
      · obtain ⟨s, h1, h2⟩ := ih rest.length (by simp at hlen ⊢; omega) rest s1 rfl
          ((heads_skip dm t x (rest ++ A) st s1 hs _).mp hhead)
        refine ⟨s, ?_, fun P hP h => h2 P hP (hstep P hP h)⟩
        show parseLoop dm (t :: x :: (rest ++ A)) st = _
        rw [parseLoop_skip dm t x (rest ++ A) st s1 hs]
        exact h1

/-! ## The following token matters only to `-D` and `-m` -/

theorem step_next_congr (dm : DataModel) (s : MainState) (t a b : String)
    (hab : strtol dm a.data = strtol dm b.data)
    (h : (step dm s t (some a)).2 = false) :
    step dm s t (some b) = step dm s t (some a) := by
  rcases token_cases t with rfl | ⟨h1, h2⟩ | rfl | ⟨h1, h2⟩ | rfl | rfl | rfl | rfl | rfl | hp
  · rw [step_dictSep] at h ⊢
    rw [step_dictSep]
    cases hd : s.pszDictionaryFilename with
    | none => rw [hd] at h; simp at h
    | some d => rfl
  · rw [step_dictAtt dm s t _ h1 h2, step_dictAtt dm s t _ h1 h2]
  · rw [step_mSep, step_mSep]
    simp only [hab]
  · rw [step_mAtt dm s t _ h1 h2, step_mAtt dm s t _ h1 h2]
  · rw [step_preferRatio, step_preferRatio]
  · rw [step_preferSpeed, step_preferSpeed]
  · rw [step_v, step_v]
  · rw [step_b, step_b]
  · rw [step_stats, step_stats]
  · rw [step_positional dm s t _ hp, step_positional dm s t _ hp]

theorem step_next_any (dm : DataModel) (s : MainState) (t a : String) (n : Option String)
    (hm : t ≠ "-m") (h : (step dm s t (some a)).2 = false) :
    step dm s t n = step dm s t (some a) := by
  rcases token_cases t with rfl | ⟨h1, h2⟩ | rfl | ⟨h1, h2⟩ | rfl | rfl | rfl | rfl | rfl | hp
  · rw [step_dictSep] at h ⊢
    rw [step_dictSep]
    cases hd : s.pszDictionaryFilename with
    | none => rw [hd] at h; simp at h
    | some d => cases n <;> rfl
  · rw [step_dictAtt dm s t _ h1 h2, step_dictAtt dm s t _ h1 h2]
  · exact absurd rfl hm
  · rw [step_mAtt dm s t _ h1 h2, step_mAtt dm s t _ h1 h2]
  · rw [step_preferRatio, step_preferRatio]
  · rw [step_preferSpeed, step_preferSpeed]
  · rw [step_v, step_v]
  · rw [step_b, step_b]
  · rw [step_stats, step_stats]
  · rw [step_positional dm s t _ hp, step_positional dm s t _ hp]

theorem strtol_preferSpeed (dm : DataModel) : strtol dm "--prefer-speed".data = (0, 0) := by
  cases dm <;> decide

theorem strtol_dash_m (dm : DataModel) : strtol dm "-m".data = (0, 0) := by
  cases dm <;> decide

theorem strtol_dash_m3 (dm : DataModel) : strtol dm "-m3".data = (0, 0) := by
  cases dm <;> decide

theorem strtol_three (dm : DataModel) : strtol dm "3".data = (3, 1) := by
  cases dm <;> decide

theorem step_mSep_ok (dm : DataModel) (s : MainState) (nx : String) (v : Int) (k : Nat)
    (hd : s.nMinMatchDefined = 0) (hstr : strtol dm nx.data = (v, k)) (hk : k ≠ 0)
    (h2 : (2 : Int) ≤ toInt32 v) (h5 : toInt32 v ≤ (5 : Int)) :
    step dm s "-m" (some nx) =
      ({ s with nMinMatchSize := toInt32 v
                nMinMatchDefined := 1
                nOptions := s.nOptions &&& (UINT_MAX - OPT_FAVOR_RATIO) }, true) := by
  rw [step_mSep, if_pos hd]
  simp only [hstr]
  rw [if_pos ⟨hk, h2, h5⟩]

theorem step_mAtt_ok (dm : DataModel) (s : MainState) (arg : String) (next : Option String)
    (v : Int) (k : Nat) (h1 : arg ≠ "-m") (hm : isMOption arg)
    (hd : s.nMinMatchDefined = 0) (hstr : strtol dm (arg.data.drop 2) = (v, k)) (hk : k ≠ 0)
    (h2 : (2 : Int) ≤ toInt32 v) (h5 : toInt32 v ≤ (5 : Int)) :
    step dm s arg next =
      ({ s with nMinMatchSize := toInt32 v
                nMinMatchDefined := 1
                nOptions := s.nOptions &&& (UINT_MAX - OPT_FAVOR_RATIO) }, false) := by
  rw [step_mAtt dm s arg next h1 hm, if_pos hd]
  simp only [hstr]
  rw [if_pos ⟨hk, h2, h5⟩]

/-! ## `--prefer-speed` and `-m 3` -/

theorem step_speed_fixed (dm : DataModel) (st : MainState) (arg : String) (next : Option String)
    (h : st.nArgsError ≠ 0 ∨ (st.nMinMatchDefined ≠ 0 ∧ st.nMinMatchSize = 3 ∧
      st.nOptions &&& OPT_FAVOR_RATIO = 0)) :
    (step dm st arg next).1.nArgsError ≠ 0 ∨ ((step dm st arg next).1.nMinMatchDefined ≠ 0 ∧
      (step dm st arg next).1.nMinMatchSize = 3 ∧
      (step dm st arg next).1.nOptions &&& OPT_FAVOR_RATIO = 0) := by
  rcases h with h | ⟨hd, hm, hf⟩
  · left; exact step_error_sticky dm st arg next h
  have hv : OPT_VERBOSE &&& OPT_FAVOR_RATIO = 0 := by decide
  have hb : OPT_BACKWARD &&& OPT_FAVOR_RATIO = 0 := by decide
  have hs : OPT_STATS &&& OPT_FAVOR_RATIO = 0 := by decide
  rcases token_cases arg with rfl | ⟨h1, h2⟩ | rfl | ⟨h1, h2⟩ | rfl | rfl | rfl | rfl | rfl | hp
  · rw [step_dictSep]; split <;> simp_all
  · rw [step_dictAtt dm st arg next h1 h2]; split <;> simp_all
  · rw [step_mSep, if_neg hd]; simp
  · rw [step_mAtt dm st arg next h1 h2, if_neg hd]; simp
  · rw [step_preferRatio, if_neg hd]; simp
  · rw [step_preferSpeed, if_neg hd]; simp
  · rw [step_v]; split <;> simp_all [or_bit_and_other]
  · rw [step_b]; split <;> simp_all [or_bit_and_other]
  · rw [step_stats]; split <;> simp_all [or_bit_and_other]
  · rw [step_positional dm st arg next hp]; repeat' split
    all_goals simp_all

theorem preferSpeed_cont_sep (dm : DataModel) (post : List String) (s : MainState) :
    resolved (parseLoop dm ("--prefer-speed" :: post) s) =
      resolved (parseLoop dm ("-m" :: "3" :: post) s) := by
  by_cases hd : s.nMinMatchDefined = 0
  · have e1 : step dm s "--prefer-speed" post.head? =
        ({ s with nMinMatchSize := 3
                  nOptions := s.nOptions &&& (UINT_MAX - OPT_FAVOR_RATIO)
                  nMinMatchDefined := 1 }, false) := by
      rw [step_preferSpeed, if_pos hd]
    have e2 : step dm s "-m" (some "3") =
        ({ s with nMinMatchSize := 3
                  nOptions := s.nOptions &&& (UINT_MAX - OPT_FAVOR_RATIO)
                  nMinMatchDefined := 1 }, true) := by
      rw [step_mSep_ok dm s "3" 3 1 hd (strtol_three dm) (by decide) (by decide) (by decide)]
      rfl
    rw [parseLoop_noskip dm _ post s _ e1, parseLoop_skip dm _ _ post s _ e2]
  · have e1 : (step dm s "--prefer-speed" post.head?).1.nArgsError ≠ 0 := by
      rw [step_preferSpeed, if_neg hd]; simp
    have e2 : (step dm s "-m" ("3" :: post).head?).1.nArgsError ≠ 0 := by
      rw [step_mSep, if_neg hd]; simp
    rw [resolved_of_error _ (parseLoop_cons_error dm _ post s e1),
      resolved_of_error _ (parseLoop_cons_error dm _ ("3" :: post) s e2)]

theorem preferSpeed_cont_att (dm : DataModel) (post : List String) (s : MainState) :
    resolved (parseLoop dm ("--prefer-speed" :: post) s) =
      resolved (parseLoop dm ("-m3" :: post) s) := by
  have h1 : "-m3" ≠ "-m" := by decide
  have h2 : isMOption "-m3" := by decide
  have h3 : strtol dm ("-m3".data.drop 2) = (3, 1) := by cases dm <;> decide
  by_cases hd : s.nMinMatchDefined = 0
  · have e1 : step dm s "--prefer-speed" post.head? =
        ({ s with nMinMatchSize := 3
                  nOptions := s.nOptions &&& (UINT_MAX - OPT_FAVOR_RATIO)
                  nMinMatchDefined := 1 }, false) := by
      rw [step_preferSpeed, if_pos hd]
    have e2 : step dm s "-m3" post.head? =
        ({ s with nMinMatchSize := 3
                  nOptions := s.nOptions &&& (UINT_MAX - OPT_FAVOR_RATIO)
                  nMinMatchDefined := 1 }, false) := by
      rw [step_mAtt_ok dm s "-m3" _ 3 1 h1 h2 hd h3 (by decide) (by decide) (by decide)]
      rfl
    rw [parseLoop_noskip dm _ post s _ e1, parseLoop_noskip dm _ post s _ e2]
  · have e1 : (step dm s "--prefer-speed" post.head?).1.nArgsError ≠ 0 := by
      rw [step_preferSpeed, if_neg hd]; simp
    have e2 : (step dm s "-m3" post.head?).1.nArgsError ≠ 0 := by
      rw [step_mAtt dm s "-m3" _ h1 h2, if_neg hd]; simp
    rw [resolved_of_error _ (parseLoop_cons_error dm _ post s e1),
      resolved_of_error _ (parseLoop_cons_error dm _ post s e2)]

/-- C8: replacing a `--prefer-speed` token that the loop reads as an option by
the two tokens `-m 3`, or by the single token `-m3`, does not change the
result of the resolver (rejected, or accepted with the same configuration);
when accepted, the minimum match size is 3 and the favor-ratio bit is clear. -/
theorem prefer_speed_same_as_m3 (dm : DataModel) (pre post : List String)
    (hhead : pre.length ∈ heads dm (pre ++ "--prefer-speed" :: post) initState) :
    resolve dm (pre ++ "-m" :: "3" :: post) = resolve dm (pre ++ "--prefer-speed" :: post) ∧
    resolve dm (pre ++ "-m3" :: post) = resolve dm (pre ++ "--prefer-speed" :: post) ∧
    ∀ c, resolve dm (pre ++ "--prefer-speed" :: post) = some c →
      c.nMinMatchSize = 3 ∧ c.nOptions &&& OPT_FAVOR_RATIO = 0 := by
  refine ⟨?_, ?_, ?_⟩
  · refine (replace_at_head dm (fun _ => False) (fun _ => True)
      ("--prefer-speed" :: post) ("-m" :: "3" :: post) (fun _ _ _ _ _ => trivial) ?_
      (fun s _ _ => preferSpeed_cont_sep dm post s) pre.length pre initState rfl trivial hhead
      (fun _ _ h => h)).symm
    intro s t _ h
    left
    exact step_next_congr dm s t "--prefer-speed" "-m"
      (by rw [strtol_preferSpeed, strtol_dash_m]) h
  · refine (replace_at_head dm (fun _ => False) (fun _ => True)
      ("--prefer-speed" :: post) ("-m3" :: post) (fun _ _ _ _ _ => trivial) ?_
      (fun s _ _ => preferSpeed_cont_att dm post s) pre.length pre initState rfl trivial hhead
      (fun _ _ h => h)).symm
    intro s t _ h
    left
    exact step_next_congr dm s t "--prefer-speed" "-m3"
      (by rw [strtol_preferSpeed, strtol_dash_m3]) h
  · intro c hc
    obtain ⟨s, hs, -⟩ := reach_head dm ("--prefer-speed" :: post) pre.length pre initState rfl hhead
    unfold resolve at hc
    rw [hs] at hc
    obtain ⟨he, -, -, -, ho, hm⟩ := resolved_some _ c hc
    have h1 : (step dm s "--prefer-speed" post.head?).1.nArgsError ≠ 0 ∨
        ((step dm s "--prefer-speed" post.head?).1.nMinMatchDefined ≠ 0 ∧
          (step dm s "--prefer-speed" post.head?).1.nMinMatchSize = 3 ∧
          (step dm s "--prefer-speed" post.head?).1.nOptions &&& OPT_FAVOR_RATIO = 0) := by
      rw [step_preferSpeed]
      split
      · right; exact ⟨by simp, rfl, and_clear_favor _⟩
      · left; simp
    have e : step dm s "--prefer-speed" post.head? =
        ((step dm s "--prefer-speed" post.head?).1, false) := by
      rw [step_preferSpeed]; split <;> rfl
    rw [parseLoop_noskip dm _ post s _ e] at he ho hm
    have key := parseLoop_preserves dm
      (fun x => x.nArgsError ≠ 0 ∨ (x.nMinMatchDefined ≠ 0 ∧ x.nMinMatchSize = 3 ∧
        x.nOptions &&& OPT_FAVOR_RATIO = 0)) (step_speed_fixed dm) post _ h1
    rcases key with key | ⟨-, k2, k3⟩
    · exact absurd he key
    · rw [ho, hm]; exact ⟨k2, k3⟩

theorem prefer_speed_same_as_m3_witness :
    [ "-v", "-D", "--prefer-speed", "in"].length ∈
        heads DataModel.long64
          ([ "-v", "-D", "--prefer-speed", "in"] ++ "--prefer-speed" :: ["out", "-b"])
          initState ∧
      resolve DataModel.long64
          ([ "-v", "-D", "--prefer-speed", "in"] ++ "-m" :: "3" :: ["out", "-b"]) =
        resolve DataModel.long64
          ([ "-v", "-D", "--prefer-speed", "in"] ++ "--prefer-speed" :: ["out", "-b"]) :=
  ⟨by decide,
   (prefer_speed_same_as_m3 DataModel.long64 [ "-v", "-D", "--prefer-speed", "in"]
    ["out", "-b"] (by decide)).1⟩

/-! ## `--prefer-ratio` and no minimum-match option -/

theorem step_nonspec_defined (dm : DataModel) (s : MainState) (t : String) (n : Option String)
    (d : Int) (ht : ¬ isMinMatchSpec t) :
    step dm { s with nMinMatchDefined := d } t n =
      ({ (step dm s t n).1 with nMinMatchDefined := d }, (step dm s t n).2) := by
  have hpr : t ≠ "--prefer-ratio" := fun h => ht (Or.inr (Or.inl h))
  have hps : t ≠ "--prefer-speed" := fun h => ht (Or.inr (Or.inr h))
  have hm : ¬ isMOption t := fun h => ht (Or.inl h)
  rcases token_cases t with rfl | ⟨h1, h2⟩ | rfl | ⟨h1, h2⟩ | rfl | rfl | rfl | rfl | rfl | hp
  · rw [step_dictSep, step_dictSep]
    cases hdict : s.pszDictionaryFilename <;> cases n <;> simp only [hdict]
  · rw [step_dictAtt dm _ t n h1 h2, step_dictAtt dm _ t n h1 h2]
    cases hdict : s.pszDictionaryFilename <;> simp only [hdict]
  · exact absurd (by decide) hm
  · exact absurd h2 hm
  · exact absurd rfl hpr
  · exact absurd rfl hps
  · rw [step_v, step_v]
    by_cases hb : s.nOptions &&& OPT_VERBOSE = 0
    · rw [if_pos hb, if_pos (show ({ s with nMinMatchDefined := d } : MainState).nOptions
        &&& OPT_VERBOSE = 0 from hb)]
    · rw [if_neg hb, if_neg (show ¬ ({ s with nMinMatchDefined := d } : MainState).nOptions
        &&& OPT_VERBOSE = 0 from hb)]
  · rw [step_b, step_b]
    by_cases hb : s.nOptions &&& OPT_BACKWARD = 0
    · rw [if_pos hb, if_pos (show ({ s with nMinMatchDefined := d } : MainState).nOptions
        &&& OPT_BACKWARD = 0 from hb)]
    · rw [if_neg hb, if_neg (show ¬ ({ s with nMinMatchDefined := d } : MainState).nOptions
        &&& OPT_BACKWARD = 0 from hb)]
  · rw [step_stats, step_stats]
    by_cases hb : s.nOptions &&& OPT_STATS = 0
    · rw [if_pos hb, if_pos (show ({ s with nMinMatchDefined := d } : MainState).nOptions
        &&& OPT_STATS = 0 from hb)]
    · rw [if_neg hb, if_neg (show ¬ ({ s with nMinMatchDefined := d } : MainState).nOptions
        &&& OPT_STATS = 0 from hb)]
  · rw [step_positional dm _ t n hp, step_positional dm _ t n hp]
    cases hi : s.pszInFilename <;> cases ho : s.pszOutFilename <;> simp only [hi, ho]

theorem step_nonspec_minmatch (dm : DataModel) (s : MainState) (t : String)
    (n : Option String) (ht : ¬ isMinMatchSpec t) :
    (step dm s t n).1.nMinMatchDefined = s.nMinMatchDefined ∧
      (step dm s t n).1.nMinMatchSize = s.nMinMatchSize := by
  have hpr : t ≠ "--prefer-ratio" := fun h => ht (Or.inr (Or.inl h))
  have hps : t ≠ "--prefer-speed" := fun h => ht (Or.inr (Or.inr h))
  have hm : ¬ isMOption t := fun h => ht (Or.inl h)
  rcases token_cases t with rfl | ⟨h1, h2⟩ | rfl | ⟨h1, h2⟩ | rfl | rfl | rfl | rfl | rfl | hp
  · rw [step_dictSep]; split <;> simp
  · rw [step_dictAtt dm s t n h1 h2]; split <;> simp
  · exact absurd (by decide) hm
  · exact absurd h2 hm
  · exact absurd rfl hpr
  · exact absurd rfl hps
  · rw [step_v]; split <;> simp
  · rw [step_b]; split <;> simp
  · rw [step_stats]; split <;> simp
  · rw [step_positional dm s t n hp]; repeat' split
    all_goals simp

/-- On a list in which no minimum-match specification is read as an option,
the loop does not depend on `nMinMatchDefined`. -/
theorem parseLoop_nonspec_defined (dm : DataModel) (d : Int) :
    ∀ (args : List String) (s : MainState),
      (∀ t ∈ headTokens dm args s, ¬ isMinMatchSpec t) →
      parseLoop dm args { s with nMinMatchDefined := d } =
        { parseLoop dm args s with nMinMatchDefined := d } := by
  intro args s
  induction args, s using parseLoop.induct dm with
  | case1 st => intro _; rw [parseLoop_nil, parseLoop_nil]
  | case2 arg rest st st1 hs ih =>
    intro hb
    rw [headTokens_noskip dm arg rest st st1 hs] at hb
    have ha : ¬ isMinMatchSpec arg := hb arg (List.mem_cons_self _ _)
    have e := step_nonspec_defined dm st arg rest.head? d ha
    rw [hs] at e
    rw [parseLoop_noskip dm arg rest _ _ e, parseLoop_noskip dm arg rest st st1 hs]
    exact ih (fun t ht => hb t (List.mem_cons_of_mem _ ht))
  | case3 arg st st1 hs =>
    intro hb
    rw [headTokens_single] at hb
    have ha : ¬ isMinMatchSpec arg := hb arg (List.mem_cons_self _ _)
    have e := step_nonspec_defined dm st arg none d ha
    rw [show step dm st arg none = (st1, true) from hs] at e
    rw [parseLoop_single_skip dm arg _ _ e, parseLoop_single_skip dm arg st st1 hs]
  | case4 arg st st1 x rest2 hs ih =>
    intro hb
    rw [headTokens_skip dm arg x rest2 st st1 hs] at hb
    have ha : ¬ isMinMatchSpec arg := hb arg (List.mem_cons_self _ _)
    have e := step_nonspec_defined dm st arg (some x) d ha
    rw [show step dm st arg (some x) = (st1, true) from hs] at e
    rw [parseLoop_skip dm arg x rest2 _ _ e, parseLoop_skip dm arg x rest2 st st1 hs]
    exact ih (fun t ht => hb t (List.mem_cons_of_mem _ ht))

theorem preferRatio_cont (dm : DataModel) (post : List String) (s : MainState)
    (hq : s.nMinMatchDefined = 0 ∧ s.nMinMatchSize = 0)
    (hb : ∀ t ∈ headTokens dm post s, ¬ isMinMatchSpec t) :
    resolved (parseLoop dm ("--prefer-ratio" :: post) s) = resolved (parseLoop dm post s) := by
  have e1 : step dm s "--prefer-ratio" post.head? =
      ({ s with nMinMatchDefined := 1 }, false) := by
    rw [step_preferRatio, if_pos hq.1]
    have : s.nMinMatchSize = 0 := hq.2
    cases s
    simp_all
  rw [parseLoop_noskip dm _ post s _ e1, parseLoop_nonspec_defined dm 1 post s hb]
  rfl

/-- C9: inserting a `--prefer-ratio` token, at a position where the loop reads
it as an option, into an argument list in which no minimum-match
specification is read as an option does not change the result of the
resolver; when the list is accepted, the minimum match size is 0 and the
favor-ratio bit is set. -/
theorem prefer_ratio_same_as_no_flag (dm : DataModel) (pre post : List String)
    (hno : ∀ t ∈ headTokens dm (pre ++ post) initState, ¬ isMinMatchSpec t)
    (hhead : pre.length ∈ heads dm (pre ++ "--prefer-ratio" :: post) initState) :
    resolve dm (pre ++ "--prefer-ratio" :: post) = resolve dm (pre ++ post) ∧
    ∀ c, resolve dm (pre ++ post) = some c →
      c.nMinMatchSize = 0 ∧ c.nOptions &&& OPT_FAVOR_RATIO ≠ 0 := by
  refine ⟨?_, ?_⟩
  · refine replace_at_head dm isMinMatchSpec
      (fun s => s.nMinMatchDefined = 0 ∧ s.nMinMatchSize = 0)
      ("--prefer-ratio" :: post) post ?_ ?_ (preferRatio_cont dm post)
      pre.length pre initState rfl ⟨rfl, rfl⟩ hhead hno
    · intro s t n hq ht
      obtain ⟨h1, h2⟩ := step_nonspec_minmatch dm s t n ht
      exact ⟨h1.trans hq.1, h2.trans hq.2⟩
    · intro s t ht h
      left
      exact step_next_any dm s t "--prefer-ratio" post.head?
        (fun hm => ht (Or.inl (by rw [hm]; decide))) h
  · intro c hc
    obtain ⟨he, -, -, -, ho, hm⟩ := resolved_some _ c hc
    have inv := parseLoop_preserves dm MinMatchInv (step_minMatchInv dm) (pre ++ post) initState
      initState_minMatchInv he
    have hcount : (headTokens dm (pre ++ post) initState).countP
        (fun a => decide (isMinMatchSpec a)) = 0 := by
      rw [List.countP_eq_zero]
      intro a ha
      simpa using hno a ha
    have key := parseLoop_levels dm isMinMatchSpec
      (fun k s => k = 0 → s.nMinMatchDefined = 0)
      (by
        intro k s arg next ht hk hk0
        rw [(step_nonspec_minmatch dm s arg next ht).1]
        exact hk hk0)
      (by
        intro k s arg next _ _ hk0
        exact absurd hk0 (Nat.succ_ne_zero k))
      (pre ++ post) initState 0 (fun _ => rfl)
    rw [hcount] at key
    have hdef := key rfl
    rcases inv with ⟨h0, hf⟩ | ⟨hd, -⟩
    · rw [ho, hm]; exact ⟨h0, hf⟩
    · exact absurd hdef hd

theorem prefer_ratio_same_as_no_flag_witness :
    ((∀ t ∈ headTokens DataModel.long64 (["-D", "-m3", "in"] ++ ["-b", "out"]) initState,
          ¬ isMinMatchSpec t) ∧
        ["-D", "-m3", "in"].length ∈
          heads DataModel.long64 (["-D", "-m3", "in"] ++ "--prefer-ratio" :: ["-b", "out"])
            initState) ∧
      resolve DataModel.long64 (["-D", "-m3", "in"] ++ "--prefer-ratio" :: ["-b", "out"]) =
        resolve DataModel.long64 (["-D", "-m3", "in"] ++ ["-b", "out"]) :=
  ⟨⟨by decide, by decide⟩,
   (prefer_ratio_same_as_no_flag DataModel.long64 ["-D", "-m3", "in"] ["-b", "out"]
    (by decide) (by decide)).1⟩

/-! ## The value of `-m` beyond the range of `int` -/

/-- C2 (the code at the failing input): where `long` has 64 bits, the value
4294967298 of `-m`, in the separated and in the attached form, is narrowed to
the `int` 2 before the range test, so the list is accepted with minimum match
size 2; where `long` has 32 bits the same lists are rejected. -/
theorem min_match_value_wraps_on_long64 :
    (isPositional "in" ∧ isPositional "out") ∧
    resolve DataModel.long64 ["-m", "4294967298", "in", "out"] =
      some { pszInFilename := "in", pszOutFilename := "out", pszDictionaryFilename := none,
             nOptions := 0, nMinMatchSize := 2 } ∧
    resolve DataModel.long64 ["-m4294967298", "in", "out"] =
      some { pszInFilename := "in", pszOutFilename := "out", pszDictionaryFilename := none,
             nOptions := 0, nMinMatchSize := 2 } ∧
    resolve DataModel.long32 ["-m", "4294967298", "in", "out"] = none ∧
    resolve DataModel.long32 ["-m4294967298", "in", "out"] = none := by
  decide

/-! ## The resolved pair of favor-ratio bit and minimum match size -/

/-- C19: in a configuration produced by the resolver the minimum match size is
0 or lies in 2..5, and the favor-ratio bit is set exactly when the size is 0:
the pair is one of (set, 0), (clear, 2), (clear, 3), (clear, 4), (clear, 5). -/
theorem resolve_favor_ratio_iff_size_zero (dm : DataModel) (args : List String)
    (c : Config) (h : resolve dm args = some c) :
    (c.nMinMatchSize = 0 ∨ ((2 : Int) ≤ c.nMinMatchSize ∧ c.nMinMatchSize ≤ (5 : Int))) ∧
      (c.nOptions &&& OPT_FAVOR_RATIO ≠ 0 ↔ c.nMinMatchSize = 0) := by
  obtain ⟨he, -, -, -, ho, hm⟩ := resolved_some _ c h
  have inv := parseLoop_preserves dm MinMatchInv (step_minMatchInv dm) args initState
    initState_minMatchInv he
  rw [ho, hm]
  rcases inv with ⟨h0, hf⟩ | ⟨-, h2, h5, hz⟩
  · exact ⟨Or.inl h0, fun _ => h0, fun _ => hf⟩
  · refine ⟨Or.inr ⟨h2, h5⟩, fun hf => absurd hz hf, fun h0 => ?_⟩
    rw [h0] at h2
    exact absurd h2 (by decide)

theorem resolve_favor_ratio_iff_size_zero_witness :
    resolve DataModel.long32 ["-b", "--prefer-speed", "in", "out"] =
        some { pszInFilename := "in", pszOutFilename := "out", pszDictionaryFilename := none,
               nOptions := 4, nMinMatchSize := 3 } ∧
      (((3 : Int) = 0 ∨ ((2 : Int) ≤ 3 ∧ (3 : Int) ≤ 5)) ∧
        (4 &&& OPT_FAVOR_RATIO ≠ 0 ↔ (3 : Int) = 0)) :=
  ⟨by decide,
   resolve_favor_ratio_iff_size_zero DataModel.long32 ["-b", "--prefer-speed", "in", "out"]
    { pszInFilename := "in", pszOutFilename := "out", pszDictionaryFilename := none,
      nOptions := 4, nMinMatchSize := 3 } (by decide)⟩

/-! ## Valued options followed by the two file names -/

theorem parseLoop_two_positionals (dm : DataModel) (a b : String) (s : MainState)
    (ha : isPositional a) (hb : isPositional b)
    (hi : s.pszInFilename = none) (ho : s.pszOutFilename = none) :
    parseLoop dm [a, b] s = { s with pszInFilename := some a, pszOutFilename := some b } := by
  have e1 : step dm s a [b].head? = ({ s with pszInFilename := some a }, false) := by
    rw [step_positional dm s a _ ha]
    simp only [hi]
  have e2 : step dm { s with pszInFilename := some a } b ([] : List String).head? =
      ({ s with pszInFilename := some a, pszOutFilename := some b }, false) := by
    rw [step_positional dm _ b _ hb]
    simp only [ho]
  rw [parseLoop_noskip dm a [b] s _ e1, parseLoop_noskip dm b [] _ _ e2, parseLoop_nil]

/-- C20: the separated form `-D` takes the following token verbatim as the
dictionary name, whatever its spelling: with two positional tokens `a`, `b`
the list `[-D, t, a, b]` is accepted with dictionary `t`, input `a`, output
`b` and the default options; `[-D, -v, a, b]` has verbose off and
`[-D, -v, -v, a, b]` is accepted (with verbose on). -/
theorem dict_value_taken_verbatim (dm : DataModel) (t a b : String)
    (ha : isPositional a) (hb : isPositional b) :
    resolve dm ["-D", t, a, b] =
        some { pszInFilename := a, pszOutFilename := b, pszDictionaryFilename := some t,
               nOptions := OPT_FAVOR_RATIO, nMinMatchSize := 0 } ∧
      resolve dm ["-D", "-v", a, b] =
        some { pszInFilename := a, pszOutFilename := b, pszDictionaryFilename := some "-v",
               nOptions := OPT_FAVOR_RATIO, nMinMatchSize := 0 } ∧
      resolve dm ["-D", "-v", "-v", a, b] =
        some { pszInFilename := a, pszOutFilename := b, pszDictionaryFilename := some "-v",
               nOptions := OPT_FAVOR_RATIO ||| OPT_VERBOSE, nMinMatchSize := 0 } := by
  have key : ∀ u : String, resolve dm ["-D", u, a, b] =
      some { pszInFilename := a, pszOutFilename := b, pszDictionaryFilename := some u,
             nOptions := OPT_FAVOR_RATIO, nMinMatchSize := 0 } := by
    intro u
    unfold resolve
    have e : step dm initState "-D" (some u) =
        ({ initState with pszDictionaryFilename := some u }, true) := by
      rw [step_dictSep]; rfl
    rw [parseLoop_skip dm "-D" u [a, b] initState _ e,
      parseLoop_two_positionals dm a b _ ha hb rfl rfl]
    rfl
  refine ⟨key t, key "-v", ?_⟩
  unfold resolve
  have e : step dm initState "-D" (some "-v") =
      ({ initState with pszDictionaryFilename := some "-v" }, true) := by
    rw [step_dictSep]; rfl
  have e2 : step dm { initState with pszDictionaryFilename := some "-v" } "-v" [a, b].head? =
      ({ initState with pszDictionaryFilename := some "-v"
                        nOptions := OPT_FAVOR_RATIO ||| OPT_VERBOSE }, false) := by
    rw [step_v]; rfl
  rw [parseLoop_skip dm "-D" "-v" ["-v", a, b] initState _ e,
    parseLoop_noskip dm "-v" [a, b] _ _ e2,
    parseLoop_two_positionals dm a b _ ha hb rfl rfl]
  rfl

theorem dict_value_taken_verbatim_witness :
    (isPositional "a.bin" ∧ isPositional "b.lzsa") ∧
      resolve DataModel.long64 ["-D", "--prefer-speed", "a.bin", "b.lzsa"] =
        some { pszInFilename := "a.bin", pszOutFilename := "b.lzsa",
               pszDictionaryFilename := some "--prefer-speed",
               nOptions := OPT_FAVOR_RATIO, nMinMatchSize := 0 } :=
  ⟨⟨by decide, by decide⟩,
   (dict_value_taken_verbatim DataModel.long64 "--prefer-speed" "a.bin" "b.lzsa"
    (by decide) (by decide)).1⟩

/-! ## Separated and attached spelling of a valued option -/

theorem attached_data (o p : String) (h : o.data.length = 2) :
    (o ++ p).data.take 2 = o.data ∧ (o ++ p).data.drop 2 = p.data ∧ (p ≠ "" → o ++ p ≠ o) := by
  refine ⟨?_, ?_, ?_⟩
  · rw [String.data_append, ← h, List.take_left]
  · rw [String.data_append, ← h, List.drop_left]
  · intro hp he
    apply hp
    have h1 := congrArg String.data he
    rw [String.data_append] at h1
    have h2 : p.data = [] := List.append_right_eq_self.mp h1
    cases p
    simp_all

theorem step_mSep_bad (dm : DataModel) (s : MainState) (nx : String)
    (h : ¬ ((strtol dm nx.data).2 ≠ 0 ∧ ((2 : Int) ≤ toInt32 (strtol dm nx.data).1 ∧
      toInt32 (strtol dm nx.data).1 ≤ (5 : Int)))) :
    (step dm s "-m" (some nx)).1.nArgsError ≠ 0 := by
  rw [step_mSep]
  split
  · simp only []
    rw [if_neg h]
    simp
  · simp

theorem step_mAtt_bad (dm : DataModel) (s : MainState) (arg : String) (next : Option String)
    (h1 : arg ≠ "-m") (hm : isMOption arg)
    (h : ¬ ((strtol dm (arg.data.drop 2)).2 ≠ 0 ∧
      ((2 : Int) ≤ toInt32 (strtol dm (arg.data.drop 2)).1 ∧
        toInt32 (strtol dm (arg.data.drop 2)).1 ≤ (5 : Int)))) :
    (step dm s arg next).1.nArgsError ≠ 0 := by
  rw [step_mAtt dm s arg next h1 hm]
  by_cases hd : s.nMinMatchDefined = 0
  · rw [if_pos hd, if_neg h]
    simp
  · rw [if_neg hd]
    simp

theorem dict_sep_att (dm : DataModel) (p : String) (rest : List String) (hp : p ≠ "") :
    resolve dm ("-D" :: p :: rest) = resolve dm (("-D" ++ p) :: rest) := by
  obtain ⟨h1, h2, h3⟩ := attached_data "-D" p (by decide)
  unfold resolve
  have e1 : step dm initState "-D" (some p) =
      ({ initState with pszDictionaryFilename := some p }, true) := by
    rw [step_dictSep]; rfl
  have e2 : step dm initState ("-D" ++ p) rest.head? =
      ({ initState with pszDictionaryFilename := some p }, false) := by
    rw [step_dictAtt dm initState _ _ (h3 hp) h1, h2]
    rfl
  rw [parseLoop_skip dm "-D" p rest initState _ e1,
    parseLoop_noskip dm ("-D" ++ p) rest initState _ e2]

theorem m_sep_att (dm : DataModel) (t : String) (rest : List String) (ht : t ≠ "") :
    resolve dm ("-m" :: t :: rest) = resolve dm (("-m" ++ t) :: rest) := by
  obtain ⟨h1, h2, h3⟩ := attached_data "-m" t (by decide)
  unfold resolve
  by_cases hok : (strtol dm t.data).2 ≠ 0 ∧ ((2 : Int) ≤ toInt32 (strtol dm t.data).1 ∧
      toInt32 (strtol dm t.data).1 ≤ (5 : Int))
  · have e1 := step_mSep_ok dm initState t (strtol dm t.data).1 (strtol dm t.data).2 rfl rfl
      hok.1 hok.2.1 hok.2.2
    have e2 := step_mAtt_ok dm initState ("-m" ++ t) rest.head? (strtol dm t.data).1
      (strtol dm t.data).2 (h3 ht) h1 rfl (by rw [h2]) hok.1 hok.2.1 hok.2.2
    rw [parseLoop_skip dm "-m" t rest initState _ e1,
      parseLoop_noskip dm ("-m" ++ t) rest initState _ e2]
  · have e1 : (step dm initState "-m" (t :: rest).head?).1.nArgsError ≠ 0 :=
      step_mSep_bad dm initState t hok
    have e2 : (step dm initState ("-m" ++ t) rest.head?).1.nArgsError ≠ 0 :=
      step_mAtt_bad dm initState ("-m" ++ t) rest.head? (h3 ht) h1 (by rw [h2]; exact hok)
    rw [resolved_of_error _ (parseLoop_cons_error dm _ (t :: rest) initState e1),
      resolved_of_error _ (parseLoop_cons_error dm _ rest initState e2)]

/-- C13: the separated and the attached spelling of a valued option are
resolved alike: `-D p` like `-D<p>` and `-m t` like `-m<t>`, for non-empty `p`
and `t` and whatever tokens follow. -/
theorem separated_attached_equivalent (dm : DataModel) (p t : String) (rest : List String)
    (hp : p ≠ "") (ht : t ≠ "") :
    resolve dm ("-D" :: p :: rest) = resolve dm (("-D" ++ p) :: rest) ∧
      resolve dm ("-m" :: t :: rest) = resolve dm (("-m" ++ t) :: rest) :=
  ⟨dict_sep_att dm p rest hp, m_sep_att dm t rest ht⟩

theorem separated_attached_equivalent_witness :
    ("-v" ≠ "" ∧ "4x" ≠ "") ∧
      resolve DataModel.long64 ("-D" :: "-v" :: ["in", "out", "-b"]) =
        resolve DataModel.long64 (("-D" ++ "-v") :: ["in", "out", "-b"]) ∧
      resolve DataModel.long64 ("-m" :: "4x" :: ["in", "out", "-b"]) =
        resolve DataModel.long64 (("-m" ++ "4x") :: ["in", "out", "-b"]) :=
  ⟨⟨by decide, by decide⟩,
   separated_attached_equivalent DataModel.long64 "-v" "4x" ["in", "out", "-b"]
    (by decide) (by decide)⟩

/-! ## Characters after the digits of the `-m` value -/

theorem m_sep_resolve (dm : DataModel) (t a b : String)
    (ha : isPositional a) (hb : isPositional b) :
    resolve dm ["-m", t, a, b] =
      if (strtol dm t.data).2 ≠ 0 ∧ ((2 : Int) ≤ toInt32 (strtol dm t.data).1 ∧
          toInt32 (strtol dm t.data).1 ≤ (5 : Int)) then
        some { pszInFilename := a, pszOutFilename := b, pszDictionaryFilename := none,
               nOptions := 0, nMinMatchSize := toInt32 (strtol dm t.data).1 }
      else none := by
  unfold resolve
  by_cases hok : (strtol dm t.data).2 ≠ 0 ∧ ((2 : Int) ≤ toInt32 (strtol dm t.data).1 ∧
      toInt32 (strtol dm t.data).1 ≤ (5 : Int))
  · have e1 := step_mSep_ok dm initState t (strtol dm t.data).1 (strtol dm t.data).2 rfl rfl
      hok.1 hok.2.1 hok.2.2
    rw [if_pos hok, parseLoop_skip dm "-m" t [a, b] initState _ e1,
      parseLoop_two_positionals dm a b _ ha hb rfl rfl]
    rfl
  · have e1 : (step dm initState "-m" [t, a, b].head?).1.nArgsError ≠ 0 :=
      step_mSep_bad dm initState t hok
    rw [if_neg hok, resolved_of_error _ (parseLoop_cons_error dm _ [t, a, b] initState e1)]

/-- C12 (the claim fails): the value tokens `3abc` and `4.5`, which have
characters after the leading digits, are accepted in the separated and in the
attached form, with minimum match sizes 3 and 4. -/
theorem trailing_characters_accepted :
    resolve DataModel.long64 ["-m", "3abc", "in", "out"] =
      some { pszInFilename := "in", pszOutFilename := "out", pszDictionaryFilename := none,
             nOptions := 0, nMinMatchSize := 3 } ∧
    resolve DataModel.long64 ["-m3abc", "in", "out"] =
      some { pszInFilename := "in", pszOutFilename := "out", pszDictionaryFilename := none,
             nOptions := 0, nMinMatchSize := 3 } ∧
    resolve DataModel.long32 ["-m", "4.5", "in", "out"] =
      some { pszInFilename := "in", pszOutFilename := "out", pszDictionaryFilename := none,
             nOptions := 0, nMinMatchSize := 4 } ∧
    resolve DataModel.long32 ["-m4.5", "in", "out"] =
      some { pszInFilename := "in", pszOutFilename := "out", pszDictionaryFilename := none,
             nOptions := 0, nMinMatchSize := 4 } := by
  decide

/-! ## The events of `do_compress` -/

theorem do_compress_events (lib : Lib) (clock : Nat → Int)
    (pszInFilename pszOutFilename : String) (pszDictionaryFilename : Option String)
    (nOptions : Nat) (nMinMatchSize : Int) :
    (do_compress lib clock pszInFilename pszOutFilename pszDictionaryFilename nOptions
        nMinMatchSize).2 =
      (if nOptions &&& OPT_VERBOSE ≠ 0 then [Event.getTime] else []) ++
      (Event.compressFile pszInFilename pszOutFilename pszDictionaryFilename
          (engineFlags lib nOptions) nMinMatchSize ::
        (lib.lzsa_compress_file pszInFilename pszOutFilename pszDictionaryFilename
          (engineFlags lib nOptions) nMinMatchSize).progressCalls.flatMap
            (fun p => compression_progress p.1 p.2)) ++
      (if nOptions &&& OPT_VERBOSE ≠ 0 then [Event.getTime] else []) ++
      (if (lib.lzsa_compress_file pszInFilename pszOutFilename pszDictionaryFilename
          (engineFlags lib nOptions) nMinMatchSize).nStatus = LZSA_OK then []
        else [Event.stderr (Line.compressionError
          (lib.lzsa_compress_file pszInFilename pszOutFilename pszDictionaryFilename
            (engineFlags lib nOptions) nMinMatchSize).nStatus)]) ++
      (if (lib.lzsa_compress_file pszInFilename pszOutFilename pszDictionaryFilename
          (engineFlags lib nOptions) nMinMatchSize).nStatus ≠ 0 then []
        else
          (if nOptions &&& OPT_VERBOSE ≠ 0 then
            [Event.stdout (Line.summary pszInFilename
                ((if nOptions &&& OPT_VERBOSE ≠ 0 then clock 1 else 0) -
                  (if nOptions &&& OPT_VERBOSE ≠ 0 then clock 0 else 0))
                (lib.lzsa_compress_file pszInFilename pszOutFilename pszDictionaryFilename
                  (engineFlags lib nOptions) nMinMatchSize).nCommandCount
                (lib.lzsa_compress_file pszInFilename pszOutFilename pszDictionaryFilename
                  (engineFlags lib nOptions) nMinMatchSize).nOriginalSize
                (lib.lzsa_compress_file pszInFilename pszOutFilename pszDictionaryFilename
                  (engineFlags lib nOptions) nMinMatchSize).nCompressedSize),
             Event.stdout (Line.safeDistance
                (lib.lzsa_compress_file pszInFilename pszOutFilename pszDictionaryFilename
                  (engineFlags lib nOptions) nMinMatchSize).nSafeDist)]
           else []) ++
          (if nOptions &&& OPT_STATS ≠ 0 then
            statsLines (lib.lzsa_compress_file pszInFilename pszOutFilename
              pszDictionaryFilename (engineFlags lib nOptions) nMinMatchSize).stats
           else [])) := by
  unfold do_compress
  by_cases hs : (lib.lzsa_compress_file pszInFilename pszOutFilename pszDictionaryFilename
      (engineFlags lib nOptions) nMinMatchSize).nStatus = 0
  · simp only [hs, ne_eq, not_true_eq_false, if_false, List.append_assoc]
  · simp only [hs, ne_eq, not_false_eq_true, if_true, List.append_nil]

theorem filter_progress_nil (p : Event → Bool) (hp : ∀ line, p (Event.stdout line) = false)
    (calls : List (Int × Int)) :
    (calls.flatMap (fun q => compression_progress q.1 q.2)).filter p = [] := by
  rw [List.filter_eq_nil_iff]
  intro e he
  rw [List.mem_flatMap] at he
  obtain ⟨q, -, hq⟩ := he
  unfold compression_progress at hq
  split at hq
  · rw [List.mem_singleton] at hq
    rw [hq, hp]; simp
  · exact absurd hq (List.not_mem_nil e)

theorem mem_statsLines (stats : lzsa_stats) (e : Event) (he : e ∈ statsLines stats) :
    ∃ line, e = Event.stdout line ∧ line.isStats = true := by
  unfold statsLines at he
  simp only [List.mem_append] at he
  rcases he with ((he | he) | he) | he
  all_goals
    split at he
    all_goals
      simp only [List.mem_cons, List.mem_singleton, List.not_mem_nil, or_false] at he
      rcases he with rfl | rfl <;> exact ⟨_, rfl, rfl⟩

theorem filter_statsLines_nil (p : Event → Bool) (hp : ∀ line, p (Event.stdout line) = false)
    (stats : lzsa_stats) : (statsLines stats).filter p = [] := by
  rw [List.filter_eq_nil_iff]
  intro e he
  obtain ⟨line, rfl, -⟩ := mem_statsLines stats e he
  rw [hp]; simp

/-- The events of `do_compress` other than written lines: the clock reads
and the engine call. -/
theorem do_compress_filter (p : Event → Bool)
    (hout : ∀ line, p (Event.stdout line) = false)
    (herr : ∀ line, p (Event.stderr line) = false)
    (lib : Lib) (clock : Nat → Int)
    (pszInFilename pszOutFilename : String) (pszDictionaryFilename : Option String)
    (nOptions : Nat) (nMinMatchSize : Int) :
    (do_compress lib clock pszInFilename pszOutFilename pszDictionaryFilename nOptions
        nMinMatchSize).2.filter p =
      ((if nOptions &&& OPT_VERBOSE ≠ 0 then [Event.getTime] else []) ++
        [Event.compressFile pszInFilename pszOutFilename pszDictionaryFilename
          (engineFlags lib nOptions) nMinMatchSize] ++
        (if nOptions &&& OPT_VERBOSE ≠ 0 then [Event.getTime] else [])).filter p := by
  rw [do_compress_events]
  simp only [List.filter_append, List.filter_cons, List.filter_nil]
  rw [filter_progress_nil p hout]
  have h4 : ∀ (c : Prop) [Decidable c] (l : Line),
      List.filter p (if c then [] else [Event.stderr l]) = [] := by
    intro c _ l
    split
    · rfl
    · simp [herr]
  have h5 : ∀ (c1 c2 c3 : Prop) [Decidable c1] [Decidable c2] [Decidable c3]
      (l1 l2 : Line) (st : lzsa_stats),
      List.filter p (if c1 then [] else
        (if c2 then [Event.stdout l1, Event.stdout l2] else []) ++
          (if c3 then statsLines st else [])) = [] := by
    intro c1 c2 c3 _ _ _ l1 l2 st
    rw [List.filter_eq_nil_iff]
    intro e he
    split at he
    · exact absurd he (List.not_mem_nil e)
    · rw [List.mem_append] at he
      rcases he with he | he
      · split at he
        · simp only [List.mem_cons, List.mem_singleton, List.not_mem_nil, or_false] at he
          rcases he with rfl | rfl <;> simp [hout]
        · exact absurd he (List.not_mem_nil e)
      · split at he
        · obtain ⟨line, rfl, -⟩ := mem_statsLines st e he
          simp [hout]
        · exact absurd he (List.not_mem_nil e)
  rw [h4, h5]
  simp

/-! ## The engine call -/

theorem or_and_left_self (x a : Nat) : (x ||| a) &&& a = a := by
  apply Nat.eq_of_testBit_eq
  intro i
  simp only [Nat.testBit_and, Nat.testBit_or]
  cases x.testBit i <;> cases a.testBit i <;> rfl

theorem and_or_absorb (x a b : Nat) (h : x &&& a = x ∨ x &&& b = x) : x &&& (a ||| b) = x := by
  apply Nat.eq_of_testBit_eq
  intro i
  rcases h with h | h
  all_goals
    have hi := congrArg (fun m => m.testBit i) h
    simp only [Nat.testBit_and, Nat.testBit_or] at hi ⊢
    cases hx : x.testBit i <;> cases ha : a.testBit i <;> cases hb : b.testBit i <;> simp_all

theorem or_or_absorb (a b : Nat) : (0 ||| a ||| b) &&& (a ||| b) = 0 ||| a ||| b := by
  apply Nat.eq_of_testBit_eq
  intro i
  simp only [Nat.testBit_and, Nat.testBit_or, Nat.zero_testBit]
  cases a.testBit i <;> cases b.testBit i <;> rfl

theorem engineFlags_ignores (lib : Lib) (n a : Nat)
    (hf : a &&& OPT_FAVOR_RATIO = 0) (hb : a &&& OPT_BACKWARD = 0) :
    engineFlags lib (n ||| a) = engineFlags lib n := by
  unfold engineFlags
  rw [or_bit_and_other n a OPT_FAVOR_RATIO hf, or_bit_and_other n a OPT_BACKWARD hb]

/-- C11: `do_compress` invokes the engine exactly once, with the input name,
output name, dictionary name and minimum match size it was given and with the
flag word `engineFlags`.  Where the two engine flag constants are non-zero
and share no bit, the flag word contains the favor-ratio flag exactly when the
favor-ratio option is set and the backward flag exactly when the backward
option is set, it contains no other bit, and the verbose and stats options
do not change it. -/
theorem engine_called_once_with_flags (lib : Lib) (clock : Nat → Int)
    (pszInFilename pszOutFilename : String) (pszDictionaryFilename : Option String)
    (nOptions : Nat) (nMinMatchSize : Int)
    (hdis : lib.LZSA_FLAG_FAVOR_RATIO &&& lib.LZSA_FLAG_BACKWARD = 0)
    (hfav : lib.LZSA_FLAG_FAVOR_RATIO ≠ 0) (hback : lib.LZSA_FLAG_BACKWARD ≠ 0) :
    (do_compress lib clock pszInFilename pszOutFilename pszDictionaryFilename nOptions
        nMinMatchSize).2.filter Event.isEngineCall =
      [Event.compressFile pszInFilename pszOutFilename pszDictionaryFilename
        (engineFlags lib nOptions) nMinMatchSize] ∧
    (engineFlags lib nOptions &&& lib.LZSA_FLAG_FAVOR_RATIO = lib.LZSA_FLAG_FAVOR_RATIO ↔
      nOptions &&& OPT_FAVOR_RATIO ≠ 0) ∧
    (engineFlags lib nOptions &&& lib.LZSA_FLAG_BACKWARD = lib.LZSA_FLAG_BACKWARD ↔
      nOptions &&& OPT_BACKWARD ≠ 0) ∧
    engineFlags lib nOptions &&& (lib.LZSA_FLAG_FAVOR_RATIO ||| lib.LZSA_FLAG_BACKWARD) =
      engineFlags lib nOptions ∧
    engineFlags lib (nOptions ||| OPT_VERBOSE) = engineFlags lib nOptions ∧
    engineFlags lib (nOptions ||| OPT_STATS) = engineFlags lib nOptions := by
  have hdis2 : lib.LZSA_FLAG_BACKWARD &&& lib.LZSA_FLAG_FAVOR_RATIO = 0 := by
    rw [Nat.and_comm]; exact hdis
  refine ⟨?_, ?_, ?_, ?_, engineFlags_ignores lib nOptions OPT_VERBOSE (by decide) (by decide),
    engineFlags_ignores lib nOptions OPT_STATS (by decide) (by decide)⟩
  · rw [do_compress_filter Event.isEngineCall (fun _ => rfl) (fun _ => rfl)]
    split <;> rfl
  · unfold engineFlags
    by_cases hF : nOptions &&& OPT_FAVOR_RATIO ≠ 0 <;>
      by_cases hB : nOptions &&& OPT_BACKWARD ≠ 0
    · rw [if_pos hB, if_pos hF, or_bit_and_other _ _ _ hdis2]
      exact ⟨fun _ => hF, fun _ => or_and_left_self _ _⟩
    · rw [if_neg hB, if_pos hF]
      exact ⟨fun _ => hF, fun _ => or_and_left_self _ _⟩
    · rw [if_pos hB, if_neg hF, or_bit_and_other _ _ _ hdis2, Nat.zero_and]
      exact ⟨fun h => absurd h.symm hfav, fun h => absurd h hF⟩
    · rw [if_neg hB, if_neg hF, Nat.zero_and]
      exact ⟨fun h => absurd h.symm hfav, fun h => absurd h hF⟩
  · unfold engineFlags
    by_cases hF : nOptions &&& OPT_FAVOR_RATIO ≠ 0 <;>
      by_cases hB : nOptions &&& OPT_BACKWARD ≠ 0
    · rw [if_pos hB, if_pos hF]
      exact ⟨fun _ => hB, fun _ => or_and_left_self _ _⟩
    · rw [if_neg hB, if_pos hF, or_bit_and_other _ _ _ hdis, Nat.zero_and]
      exact ⟨fun h => absurd h.symm hback, fun h => absurd h hB⟩
    · rw [if_pos hB, if_neg hF]
      exact ⟨fun _ => hB, fun _ => or_and_left_self _ _⟩
    · rw [if_neg hB, if_neg hF, Nat.zero_and]
      exact ⟨fun h => absurd h.symm hback, fun h => absurd h hB⟩
  · unfold engineFlags
    by_cases hF : nOptions &&& OPT_FAVOR_RATIO ≠ 0 <;>
      by_cases hB : nOptions &&& OPT_BACKWARD ≠ 0
    · rw [if_pos hB, if_pos hF]
      exact or_or_absorb _ _
    · rw [if_neg hB, if_pos hF]
      exact and_or_absorb _ _ _ (Or.inl ((or_and_left_self _ _).trans (Nat.zero_or _).symm))
    · rw [if_pos hB, if_neg hF]
      exact and_or_absorb _ _ _ (Or.inr ((or_and_left_self _ _).trans (Nat.zero_or _).symm))
    · rw [if_neg hB, if_neg hF]
      exact Nat.zero_and _

theorem engine_called_once_with_flags_witness :
    (sampleLib.LZSA_FLAG_FAVOR_RATIO &&& sampleLib.LZSA_FLAG_BACKWARD = 0 ∧
      sampleLib.LZSA_FLAG_FAVOR_RATIO ≠ 0 ∧ sampleLib.LZSA_FLAG_BACKWARD ≠ 0) ∧
    (do_compress sampleLib (fun _ => 0) "in" "out" none
        (OPT_BACKWARD ||| OPT_VERBOSE) 3).2.filter Event.isEngineCall =
      [Event.compressFile "in" "out" none
        (engineFlags sampleLib (OPT_BACKWARD ||| OPT_VERBOSE)) 3] :=
  ⟨⟨by decide, by decide, by decide⟩,
   (engine_called_once_with_flags sampleLib (fun _ => 0) "in" "out" none
    (OPT_BACKWARD ||| OPT_VERBOSE) 3 (by decide) (by decide) (by decide)).1⟩

/-! ## The clock -/

/-- C15: among the events of `do_compress`, the clock reads and the engine
call are, in order: without the verbose option, the engine call alone (the
clock is never read); with it, one clock read, the engine call, one clock
read, whatever the status that the engine returns. -/
theorem clock_read_only_when_verbose (lib : Lib) (clock : Nat → Int)
    (pszInFilename pszOutFilename : String) (pszDictionaryFilename : Option String)
    (nOptions : Nat) (nMinMatchSize : Int) :
    (do_compress lib clock pszInFilename pszOutFilename pszDictionaryFilename nOptions
        nMinMatchSize).2.filter (fun e => e.isClockRead || e.isEngineCall) =
      (if nOptions &&& OPT_VERBOSE ≠ 0 then
        [Event.getTime,
         Event.compressFile pszInFilename pszOutFilename pszDictionaryFilename
          (engineFlags lib nOptions) nMinMatchSize,
         Event.getTime]
       else
        [Event.compressFile pszInFilename pszOutFilename pszDictionaryFilename
          (engineFlags lib nOptions) nMinMatchSize]) ∧
    (do_compress lib clock pszInFilename pszOutFilename pszDictionaryFilename nOptions
        nMinMatchSize).2.filter Event.isClockRead =
      (if nOptions &&& OPT_VERBOSE ≠ 0 then [Event.getTime, Event.getTime] else []) := by
  constructor
  · rw [do_compress_filter (fun e => e.isClockRead || e.isEngineCall) (fun _ => rfl)
      (fun _ => rfl)]
    split <;> rfl
  · rw [do_compress_filter Event.isClockRead (fun _ => rfl) (fun _ => rfl)]
    split <;> rfl

/-! ## The progress callback -/

/-- C16: `compression_progress` writes nothing when the original size is
below 1,048,576 and writes one status line when it is 1,048,576 or more; the
boundary value itself produces output. -/
theorem progress_threshold (nOriginalSize nCompressedSize : Int) :
    compression_progress nOriginalSize nCompressedSize =
      (if nOriginalSize < 1048576 then []
       else [Event.stdout (Line.progress nOriginalSize nCompressedSize)]) ∧
    compression_progress 1048576 nCompressedSize =
      [Event.stdout (Line.progress 1048576 nCompressedSize)] ∧
    compression_progress 1048575 nCompressedSize = [] := by
  have h : ∀ o : Int, compression_progress o nCompressedSize =
      (if o < 1048576 then [] else [Event.stdout (Line.progress o nCompressedSize)]) := by
    intro o
    unfold compression_progress
    by_cases ho : o < 1048576
    · rw [if_pos ho, if_neg (by omega)]
    · rw [if_neg ho, if_pos (by omega)]
  exact ⟨h _, (h _).trans (if_neg (by decide)), (h _).trans (if_pos (by decide))⟩

/-! ## The text of the progress line -/

theorem progress_items_ld (o c : Int) (p : Rat) :
    fprintf (progressFormat "ld") [Arg.longlong o, Arg.longlong c, Arg.double p] =
      lit "\rld => ld (" ++ [OutItem.conv "g".data (some (Arg.double p))] ++
        lit " %)     \x08\x08\x08\x08\x08" := by
  rfl

theorem progress_items_lld (o c : Int) (p : Rat) :
    fprintf (progressFormat "lld") [Arg.longlong o, Arg.longlong c, Arg.double p] =
      lit "\rlld => lld (" ++ [OutItem.conv "g".data (some (Arg.double p))] ++
        lit " %)     \x08\x08\x08\x08\x08" := by
  rfl

/-- C17 (the code at the failing input): a call of the progress callback with
sizes 1048576 and 524288 writes one line, and for every pair of sizes the text
of the line holds the characters of `PRId64` (`ld`, or `lld`) where the
decimal renderings of the two sizes are meant to be: no conversion fetches
either size.  The percentage is written by the `%g` conversion; for the
sizes 1048576 and 524288 the text is `ld => ld (50 %)`. -/
theorem progress_text_omits_sizes (nOriginalSize nCompressedSize : Int) :
    compression_progress 1048576 524288 = [Event.stdout (Line.progress 1048576 524288)] ∧
    progressText "ld" nOriginalSize nCompressedSize =
      lit "\rld => ld (" ++
        [OutItem.conv "g".data
          (some (Arg.double ((nCompressedSize : Rat) * 100 / (nOriginalSize : Rat))))] ++
        lit " %)     \x08\x08\x08\x08\x08" ∧
    progressText "lld" nOriginalSize nCompressedSize =
      lit "\rlld => lld (" ++
        [OutItem.conv "g".data
          (some (Arg.double ((nCompressedSize : Rat) * 100 / (nOriginalSize : Rat))))] ++
        lit " %)     \x08\x08\x08\x08\x08" ∧
    progressText "ld" 1048576 524288 =
      lit "\rld => ld (" ++ [OutItem.conv "g".data (some (Arg.double 50))] ++
        lit " %)     \x08\x08\x08\x08\x08" := by
  refine ⟨by decide, progress_items_ld _ _ _, progress_items_lld _ _ _, ?_⟩
  have h : ((524288 : Int) : Rat) * 100 / ((1048576 : Int) : Rat) = 50 := by norm_num
  unfold progressText progressArgs
  rw [h]
  exact progress_items_ld _ _ _

/-! ## The text of the summary line -/

set_option maxRecDepth 8000 in
theorem summary_items_ld (name : Option String) (cc o c : Int) (p1 p2 p3 p4 : Rat) :
    fprintf (summaryFormat "ld")
        [Arg.str name, Arg.double p1, Arg.double p2, Arg.int cc, Arg.double p3,
         Arg.longlong o, Arg.longlong c, Arg.double p4] =
      lit "\rCompressed \x27" ++ [OutItem.conv "s".data (some (Arg.str name))] ++
        lit "\x27 in " ++ [OutItem.conv "g".data (some (Arg.double p1))] ++
        lit " seconds, " ++ [OutItem.conv ".02g".data (some (Arg.double p2))] ++
        lit " Mb/s, " ++ [OutItem.conv "d".data (some (Arg.int cc))] ++
        lit " tokens (" ++ [OutItem.conv "g".data (some (Arg.double p3))] ++
        lit " bytes/token), ld into ld bytes ==> " ++
        [OutItem.conv "g".data (some (Arg.double p4))] ++
        lit " %\n" := by
  rfl

/-- C18 (the code at the failing input): with the verbose option and an
engine that reports success with 4 tokens, 4096 original and 1024 compressed
bytes, `do_compress` writes the summary line.  Its text reports the average
1024 and the percentage 25, but it holds the characters of `PRId64` (`ld`)
where the original and the compressed byte counts are meant to be: no
conversion fetches either byte count. -/
theorem summary_text_omits_sizes (nElapsed : Int) :
    do_compress sampleLib (fun k => 1000000 * (k : Int)) "in" "out" none OPT_VERBOSE 0 =
      (0, [Event.getTime, Event.compressFile "in" "out" none 0 0, Event.getTime,
           Event.stdout (Line.summary "in" 1000000 4 4096 1024),
           Event.stdout (Line.safeDistance 0)]) ∧
    summaryText "ld" "in" nElapsed 4 4096 1024 =
      lit "\rCompressed \x27" ++ [OutItem.conv "s".data (some (Arg.str (some "in")))] ++
        lit "\x27 in " ++ [OutItem.conv "g".data (some (Arg.double ((nElapsed : Rat) / 1000000)))] ++
        lit " seconds, " ++
        [OutItem.conv ".02g".data
          (some (Arg.double (((4096 : Rat) / 1048576) / ((nElapsed : Rat) / 1000000))))] ++
        lit " Mb/s, " ++ [OutItem.conv "d".data (some (Arg.int 4))] ++
        lit " tokens (" ++ [OutItem.conv "g".data (some (Arg.double 1024))] ++
        lit " bytes/token), ld into ld bytes ==> " ++
        [OutItem.conv "g".data (some (Arg.double 25))] ++
        lit " %\n" := by
  have hargs : summaryArgs "in" nElapsed 4 4096 1024 =
      [Arg.str (some "in"), Arg.double ((nElapsed : Rat) / 1000000),
       Arg.double (((4096 : Rat) / 1048576) / ((nElapsed : Rat) / 1000000)),
       Arg.int 4, Arg.double 1024, Arg.longlong 4096, Arg.longlong 1024, Arg.double 25] := by
    unfold summaryArgs
    norm_num
  refine ⟨by decide, ?_⟩
  unfold summaryText
  rw [hargs]
  exact summary_items_ld _ _ _ _ _ _ _ _

/-! ## The statistics lines -/

theorem cDiv_pos (a b : Int) (hb : b > 0) : cDiv a b = some (Int.tdiv a b) := by
  unfold cDiv
  rw [if_neg]
  rintro (h | ⟨-, h⟩) <;> omega

theorem statsLinesChecked_eq (stats : lzsa_stats) :
    statsLinesChecked stats = some (statsLines stats) := by
  unfold statsLinesChecked statsLines
  by_cases h1 : stats.literals_divisor > 0 <;> by_cases h2 : stats.match_divisor > 0 <;>
    by_cases h3 : stats.rle1_divisor > 0 <;> by_cases h4 : stats.rle2_divisor > 0 <;>
    simp [h1, h2, h3, h4, cDiv_pos]

theorem statsLines_eq_spec (stats : lzsa_stats)
    (h1 : 0 ≤ stats.literals_divisor) (h2 : 0 ≤ stats.match_divisor)
    (h3 : 0 ≤ stats.rle1_divisor) (h4 : 0 ≤ stats.rle2_divisor) :
    statsLines stats = statsLinesSpec stats := by
  have key : ∀ (d : Int) (x y : List Event), 0 ≤ d →
      (if d > 0 then x else y) = (if d = 0 then y else x) := by
    intro d x y hd
    by_cases h : d = 0
    · rw [if_pos h, if_neg (by omega)]
    · rw [if_neg h, if_pos (by omega)]
  unfold statsLines statsLinesSpec
  rw [key _ _ _ h1, key _ _ _ h2, key _ _ _ h3, key _ _ _ h4]

theorem do_compress_stats_lines (lib : Lib) (clock : Nat → Int)
    (pszInFilename pszOutFilename : String) (pszDictionaryFilename : Option String)
    (nOptions : Nat) (nMinMatchSize : Int)
    (hok : (lib.lzsa_compress_file pszInFilename pszOutFilename pszDictionaryFilename
      (engineFlags lib nOptions) nMinMatchSize).nStatus = LZSA_OK)
    (hstats : nOptions &&& OPT_STATS ≠ 0) :
    (do_compress lib clock pszInFilename pszOutFilename pszDictionaryFilename nOptions
        nMinMatchSize).2.filter Event.isStatsLine =
      statsLines (lib.lzsa_compress_file pszInFilename pszOutFilename pszDictionaryFilename
        (engineFlags lib nOptions) nMinMatchSize).stats := by
  have hprog : ∀ calls : List (Int × Int),
      (calls.flatMap (fun q => compression_progress q.1 q.2)).filter Event.isStatsLine = [] := by
    intro calls
    rw [List.filter_eq_nil_iff]
    intro e he
    rw [List.mem_flatMap] at he
    obtain ⟨q, -, hq⟩ := he
    unfold compression_progress at hq
    split at hq
    · rw [List.mem_singleton] at hq
      rw [hq]; simp [Event.isStatsLine, Line.isStats]
    · exact absurd hq (List.not_mem_nil e)
  have hself : ∀ st : lzsa_stats, (statsLines st).filter Event.isStatsLine = statsLines st := by
    intro st
    rw [List.filter_eq_self]
    intro e he
    obtain ⟨line, rfl, hl⟩ := mem_statsLines st e he
    exact hl
  have hok0 : (lib.lzsa_compress_file pszInFilename pszOutFilename pszDictionaryFilename
      (engineFlags lib nOptions) nMinMatchSize).nStatus = 0 := hok
  rw [do_compress_events]
  simp only [List.filter_append, List.filter_cons, hprog]
  rw [if_pos hok, if_neg (not_not.mpr hok0), if_pos hstats, List.filter_append, hself]
  by_cases hv : nOptions &&& OPT_VERBOSE ≠ 0
  · simp only [if_pos hv]
    simp [Event.isStatsLine, Event.isEngineCall, Line.isStats]
  · simp only [if_neg hv]
    simp [Event.isStatsLine, Event.isEngineCall, Line.isStats]

theorem statsLines_eq_amended (stats : lzsa_stats) :
    statsLines stats = statsLinesAmended stats := by
  have key : ∀ (d : Int) (x y : List Event),
      (if d > 0 then x else y) = (if d ≤ 0 then y else x) := by
    intro d x y
    by_cases h : d ≤ 0
    · rw [if_pos h, if_neg (by omega)]
    · rw [if_neg h, if_pos (by omega)]
  unfold statsLines statsLinesAmended
  rw [key, key, key, key]

/-- C14 (the claim fails): an engine reports success with a statistics record
whose divisor of the literals is -1, not zero, and statistics output is
requested; the line of the literals reads "none", where the claim has it
report minimum, average, maximum and count. -/
theorem negative_divisor_prints_none :
    (negDivisorLib.lzsa_compress_file "in" "out" none (engineFlags negDivisorLib OPT_STATS)
        0).nStatus = LZSA_OK ∧
    OPT_STATS &&& OPT_STATS ≠ 0 ∧
    (negDivisorLib.lzsa_compress_file "in" "out" none (engineFlags negDivisorLib OPT_STATS)
        0).stats.literals_divisor ≠ 0 ∧
    (do_compress negDivisorLib (fun _ => 0) "in" "out" none OPT_STATS 0).2.filter
        Event.isStatsLine =
      [Event.stdout Line.literalsNone, Event.stdout Line.offsetsNone,
       Event.stdout Line.matchLensNone, Event.stdout Line.rle1LensNone,
       Event.stdout Line.rle2LensNone] ∧
    (do_compress negDivisorLib (fun _ => 0) "in" "out" none OPT_STATS 0).2.filter
        Event.isStatsLine ≠
      statsLinesSpec (negDivisorLib.lzsa_compress_file "in" "out" none
        (engineFlags negDivisorLib OPT_STATS) 0).stats := by
  decide

/-- C14 (amended): when statistics output is requested and the engine reports
success, the statistics lines written by `do_compress` are, for every
statistics record, the lines of `statsLinesAmended`: "none" for a category
whose divisor is zero or negative, otherwise minimum, truncated average,
maximum and count (and the repeated offsets for the offsets).  No undefined
division is executed: the checked run of the code succeeds, with the same
lines. -/
theorem stats_lines_as_amended (lib : Lib) (clock : Nat → Int)
    (pszInFilename pszOutFilename : String) (pszDictionaryFilename : Option String)
    (nOptions : Nat) (nMinMatchSize : Int)
    (hok : (lib.lzsa_compress_file pszInFilename pszOutFilename pszDictionaryFilename
      (engineFlags lib nOptions) nMinMatchSize).nStatus = LZSA_OK)
    (hstats : nOptions &&& OPT_STATS ≠ 0) :
    (do_compress lib clock pszInFilename pszOutFilename pszDictionaryFilename nOptions
        nMinMatchSize).2.filter Event.isStatsLine =
      statsLinesAmended (lib.lzsa_compress_file pszInFilename pszOutFilename
        pszDictionaryFilename (engineFlags lib nOptions) nMinMatchSize).stats ∧
    statsLinesChecked (lib.lzsa_compress_file pszInFilename pszOutFilename
        pszDictionaryFilename (engineFlags lib nOptions) nMinMatchSize).stats =
      some (statsLinesAmended (lib.lzsa_compress_file pszInFilename pszOutFilename
        pszDictionaryFilename (engineFlags lib nOptions) nMinMatchSize).stats) := by
  rw [do_compress_stats_lines lib clock pszInFilename pszOutFilename pszDictionaryFilename
    nOptions nMinMatchSize hok hstats, statsLinesChecked_eq, statsLines_eq_amended]
  exact ⟨rfl, rfl⟩

theorem stats_lines_as_amended_witness :
    ((sampleLib.lzsa_compress_file "in" "out" none (engineFlags sampleLib OPT_STATS)
        0).nStatus = LZSA_OK ∧
      OPT_STATS &&& OPT_STATS ≠ 0) ∧
    (do_compress sampleLib (fun _ => 0) "in" "out" none OPT_STATS 0).2.filter
        Event.isStatsLine =
      [Event.stdout (Line.literals 1 3 6 3), Event.stdout Line.offsetsNone,
       Event.stdout Line.matchLensNone, Event.stdout (Line.rle1Lens 2 3 5 2),
       Event.stdout Line.rle2LensNone] :=
  ⟨⟨rfl, by decide⟩,
   ((stats_lines_as_amended sampleLib (fun _ => 0) "in" "out" none OPT_STATS 0 rfl
      (by decide)).1.trans (by decide))⟩

/-! ## `strtol` on digits followed by other characters -/

theorem readDigits_append (g : List Char)
    (hg : ∀ c, g.head? = some c → isdigit c = false) :
    ∀ (ds : List Char) (acc n : Nat), (∀ c ∈ ds, isdigit c = true) →
      readDigits (ds ++ g) acc n = ((readDigits ds acc n).1, n + ds.length) := by
  intro ds
  induction ds with
  | nil =>
    intro acc n _
    cases g with
    | nil => simp [readDigits]
    | cons c cs =>
      have hc := hg c rfl
      simp [readDigits, hc]
  | cons d ds ih =>
    intro acc n hds
    have hd : isdigit d = true := hds d (List.mem_cons_self _ _)
    have e1 : readDigits (d :: ds ++ g) acc n =
        readDigits (ds ++ g) (acc * 10 + (d.toNat - 48)) (n + 1) := by
      show readDigits (d :: (ds ++ g)) acc n = _
      rw [readDigits, if_pos hd]
    have e2 : readDigits (d :: ds) acc n =
        readDigits ds (acc * 10 + (d.toNat - 48)) (n + 1) := by
      rw [readDigits, if_pos hd]
    rw [e1, e2, ih _ _ (fun c hc => hds c (List.mem_cons_of_mem _ hc))]
    simp only [List.length_cons]
    congr 1
    omega

theorem toInt32_of_range (v : Int) (h0 : -2147483648 ≤ v) (h1 : v ≤ 2147483647) :
    toInt32 v = v := by
  unfold toInt32
  omega

theorem dropWhile_isspace_append (ws rest : List Char) (hws : ∀ c ∈ ws, isspace c = true) :
    (ws ++ rest).dropWhile isspace = rest.dropWhile isspace := by
  induction ws with
  | nil => rfl
  | cons w ws ih =>
    have hw : isspace w = true := hws w (List.mem_cons_self _ _)
    rw [List.cons_append, List.dropWhile_cons, if_pos hw]
    exact ih (fun c hc => hws c (List.mem_cons_of_mem _ hc))

/-- Function `strtol` on optional white space, an optional sign and one or
more digits, followed by characters that do not begin with a digit: the value
is the signed number denoted by the digits, and a conversion is performed. -/
theorem strtol_integer (dm : DataModel) (ws sign : List Char) (d : Char) (ds g : List Char)
    (hws : ∀ c ∈ ws, isspace c = true)
    (hsign : sign = [] ∨ sign = ['-'] ∨ sign = ['+'])
    (hds : ∀ c ∈ d :: ds, isdigit c = true)
    (hg : ∀ c, g.head? = some c → isdigit c = false)
    (hv : (readDigits (d :: ds) 0 0).1 ≤ 2147483647) :
    (strtol dm (ws ++ (sign ++ (d :: ds ++ g)))).1 =
        (if sign = ['-'] then -((readDigits (d :: ds) 0 0).1 : Int)
         else ((readDigits (d :: ds) 0 0).1 : Int)) ∧
      (strtol dm (ws ++ (sign ++ (d :: ds ++ g)))).2 ≠ 0 := by
  have hd : isdigit d = true := hds d (List.mem_cons_self _ _)
  have hsp : isspace d = false := by
    unfold isdigit at hd
    unfold isspace
    simp only [Bool.and_eq_true, decide_eq_true_eq] at hd
    simp only [Bool.or_eq_false_iff, Bool.and_eq_false_iff, decide_eq_false_iff_not]
    omega
  have hminus : d ≠ '-' := by
    rintro rfl
    exact absurd hd (by decide)
  have hplus : d ≠ '+' := by
    rintro rfl
    exact absurd hd (by decide)
  have hspm : isspace '-' = false := by decide
  have hspp : isspace '+' = false := by decide
  have hpm : ('+' : Char) ≠ '-' := by decide
  have hr := readDigits_append g hg (d :: ds) 0 0 hds
  simp only [List.cons_append] at hr
  have hclamp : clampLong dm ((readDigits (d :: ds) 0 0).1 : Int) =
      ((readDigits (d :: ds) 0 0).1 : Int) := by
    unfold clampLong LONG_MIN LONG_MAX
    cases dm <;> simp only [DataModel.longBits] <;> norm_num <;> omega
  have hclampNeg : clampLong dm (-((readDigits (d :: ds) 0 0).1 : Int)) =
      -((readDigits (d :: ds) 0 0).1 : Int) := by
    unfold clampLong LONG_MIN LONG_MAX
    cases dm <;> simp only [DataModel.longBits] <;> norm_num <;> omega
  unfold strtol
  rw [dropWhile_isspace_append ws _ hws]
  rcases hsign with rfl | rfl | rfl
  · simp only [List.nil_append, List.cons_append, List.dropWhile_cons, hsp]
    simp [hr, hclamp, hminus, hplus]
  · simp only [List.cons_append, List.nil_append, List.dropWhile_cons, hspm]
    simp [hr, hclampNeg]
  · simp only [List.cons_append, List.nil_append, List.dropWhile_cons, hspp]
    simp [hr, hclamp, hpm]

/-- C12 (amended): a value token of `-m` made of optional white space, an
optional sign and one or more decimal digits (denoting a number within the
range of `int`), followed by any characters that do not begin with a digit,
is resolved by its leading integer alone: with two positional tokens after
it, the list is accepted, in the separated and in the attached form, exactly
when the sign is not minus and the digits denote a number in 2..5, which is
then the minimum match size.  The characters after the digits are not
examined. -/
theorem min_match_trailing_characters_ignored (dm : DataModel) (ws sign : List Char)
    (d : Char) (ds g : List Char) (a b : String)
    (hws : ∀ c ∈ ws, isspace c = true)
    (hsign : sign = [] ∨ sign = ['-'] ∨ sign = ['+'])
    (hds : ∀ c ∈ d :: ds, isdigit c = true)
    (hg : ∀ c, g.head? = some c → isdigit c = false)
    (hv : (readDigits (d :: ds) 0 0).1 ≤ 2147483647)
    (ha : isPositional a) (hb : isPositional b) :
    resolve dm ["-m", String.mk (ws ++ (sign ++ (d :: ds ++ g))), a, b] =
      (if sign ≠ ['-'] ∧ (2 : Int) ≤ ((readDigits (d :: ds) 0 0).1 : Int) ∧
          ((readDigits (d :: ds) 0 0).1 : Int) ≤ (5 : Int) then
        some { pszInFilename := a, pszOutFilename := b, pszDictionaryFilename := none,
               nOptions := 0, nMinMatchSize := ((readDigits (d :: ds) 0 0).1 : Int) }
      else none) ∧
    resolve dm ["-m" ++ String.mk (ws ++ (sign ++ (d :: ds ++ g))), a, b] =
      (if sign ≠ ['-'] ∧ (2 : Int) ≤ ((readDigits (d :: ds) 0 0).1 : Int) ∧
          ((readDigits (d :: ds) 0 0).1 : Int) ≤ (5 : Int) then
        some { pszInFilename := a, pszOutFilename := b, pszDictionaryFilename := none,
               nOptions := 0, nMinMatchSize := ((readDigits (d :: ds) 0 0).1 : Int) }
      else none) := by
  have hne : String.mk (ws ++ (sign ++ (d :: ds ++ g))) ≠ "" := by
    intro h
    have := congrArg String.data h
    simp at this
  obtain ⟨hval, hoff⟩ := strtol_integer dm ws sign d ds g hws hsign hds hg hv
  have hnn : (0 : Int) ≤ ((readDigits (d :: ds) 0 0).1 : Int) := Int.ofNat_nonneg _
  have hle : ((readDigits (d :: ds) 0 0).1 : Int) ≤ 2147483647 := by exact_mod_cast hv
  have key : resolve dm ["-m", String.mk (ws ++ (sign ++ (d :: ds ++ g))), a, b] =
      (if sign ≠ ['-'] ∧ (2 : Int) ≤ ((readDigits (d :: ds) 0 0).1 : Int) ∧
          ((readDigits (d :: ds) 0 0).1 : Int) ≤ (5 : Int) then
        some { pszInFilename := a, pszOutFilename := b, pszDictionaryFilename := none,
               nOptions := 0, nMinMatchSize := ((readDigits (d :: ds) 0 0).1 : Int) }
      else none) := by
    rw [m_sep_resolve dm _ a b ha hb]
    simp only [hval]
    by_cases hs : sign = ['-']
    · have hto := toInt32_of_range (-((readDigits (d :: ds) 0 0).1 : Int)) (by omega) (by omega)
      rw [if_pos hs, hto, if_neg (fun h => by omega), if_neg (fun h => absurd hs h.1)]
    · have hto := toInt32_of_range ((readDigits (d :: ds) 0 0).1 : Int) (by omega) (by omega)
      rw [if_neg hs, hto]
      by_cases hr : (2 : Int) ≤ ((readDigits (d :: ds) 0 0).1 : Int) ∧
          ((readDigits (d :: ds) 0 0).1 : Int) ≤ (5 : Int)
      · rw [if_pos ⟨hoff, hr⟩, if_pos ⟨hs, hr⟩]
      · rw [if_neg (fun h => hr h.2), if_neg (fun h => hr h.2)]
  refine ⟨key, ?_⟩
  rw [← m_sep_att dm _ [a, b] hne]
  exact key

theorem min_match_trailing_characters_ignored_witness :
    ((∀ c ∈ [' '], isspace c = true) ∧
      (['+'] = [] ∨ ['+'] = ['-'] ∨ ['+'] = ['+']) ∧
      (∀ c ∈ '3' :: [], isdigit c = true) ∧
      (∀ c, "abc".data.head? = some c → isdigit c = false) ∧
      (readDigits ('3' :: []) 0 0).1 ≤ 2147483647 ∧
      isPositional "in" ∧ isPositional "out") ∧
    resolve DataModel.long64
        ["-m", String.mk ([' '] ++ (['+'] ++ ('3' :: [] ++ "abc".data))), "in", "out"] =
      some { pszInFilename := "in", pszOutFilename := "out", pszDictionaryFilename := none,
             nOptions := 0, nMinMatchSize := 3 } :=
  ⟨⟨by decide, by decide, by decide, by decide, by decide, by decide, by decide⟩,
   ((min_match_trailing_characters_ignored DataModel.long64 [' '] ['+'] '3' [] "abc".data
      "in" "out" (by decide) (by decide) (by decide) (by decide) (by decide) (by decide)
      (by decide)).1.trans
    (by decide))⟩

end Lzsa
